import Mathlib

/-!
# StepperDriver: a shallow embedding of `lib/StepperDriver/StepperDriver.cpp`

The motion-control layer of the robotic arm drives one bipolar stepper through a
DRV8711 gate driver.  This file embeds the `Stepper` class and states and proves
properties of its operations.

Modelling conventions.

* `float` and `double` values are rationals (`ℚ`), and every operation the source
  performs on them is followed by the IEEE 754 rounding of its result, to nearest
  with ties to even: to binary32 (`roundFloat`) where the source computes or stores
  a `float`, to binary64 (`roundDouble`) where it computes in `double` (an operand
  written `360.0`, `2.0`, `1000000.0` makes the operation a `double` one).
  Subnormal values are modelled; a result whose magnitude reaches `2^128` stands
  for an infinity, and in the source such a value only ever reaches a conversion
  to `unsigned int`, which C leaves undefined (see `Target`).  `HPSDStepMode` has
  no enumerator of value 0, and the product of an infinite quotient by a mode of 0
  (a NaN in the source) is not modelled.
* `unsigned int` is 32 bits wide (the pin numbers 33, 15, 32 and 14 of `main.cpp` are
  those of a 32-bit board).
* `uint8_t` and `uint16_t` members are natural numbers; `HPSDStepMode` comes from the
  vendor header, which is not part of the repository, and is represented by the
  numeric value of the enumerator (the value the source obtains with its casts
  `(uint16_t)stepper_MicroStepMode` and `(float)stepper_MicroStepMode`).
* The calls made on the driver object `sd` and on the Arduino runtime are recorded
  as a list of `Event`s, in the order in which the source issues them.
-/

set_option linter.dupNamespace false

namespace StepperDriver

/-- The `#define MAX_ROT_VEL 100.0` of `StepperDriver.h`. -/
def MAX_ROT_VEL : ℚ := 100

/-- The `stepper_response` enumeration of `StepperDriver.h`. -/
inductive stepper_response where
  | STALL
  | COMPLETED
  | TIMEOUT_ON_FIND_ZERO
  | ERROR_UNKNOWN
  | WARNING_VEL_SET_ZERO
  | ERROR_ABOVE_VEL_MAX
  | SUCCESS
  deriving DecidableEq, Repr

open stepper_response

/-- Calls the `Stepper` class makes on its collaborators: the driver object `sd`
(`setChipSelectPin`, `resetSettings`, `clearStatus`, `setDecayMode`,
`setCurrentMilliamps36v4`, `setStepMode`, `setDirection`, `enableDriver`, `step`) and
the Arduino runtime (`pinMode(pin, INPUT)`, `delay`, `delayMicroseconds`,
`digitalRead`). -/
inductive Event where
  | setChipSelectPin (pin : Nat)
  | pinModeInput (pin : Nat)
  | delay (ms : Nat)
  | resetSettings
  | clearStatus
  | setDecayModeAutoMixed
  | setCurrentMilliamps36v4 (milliamps : Nat)
  | setStepMode (mode : Nat)
  | setDirection (bit : Nat)
  | enableDriver
  | step
  | delayMicroseconds (us : Nat)
  | digitalRead (pin : Nat)
  deriving DecidableEq, Repr

/-- The two values `digitalRead` returns. -/
inductive PinLevel where
  | LOW
  | HIGH
  deriving DecidableEq, Repr

/-- Number of values of a 32-bit `unsigned int`. -/
def UINT_RANGE : Nat := 4294967296

/-- What the target does where C leaves the conversion of a `float` to
`unsigned int` undefined.  `outOfRange x` is the value produced for a finite `x`
whose truncation does not fit (`x ≤ -1` or `x ≥ 2^32`); `infinite` is the value
produced for `+inf`, which is what `1000000.0 / 0` evaluates to.  Theorems that
quantify over every `Target` hold whatever the hardware does there. -/
structure Target where
  outOfRange : ℚ → Nat
  infinite : Nat

/-- The C conversion `(unsigned int)x` of a finite `float`: truncation toward zero
when the truncated value is representable, the target's choice otherwise. -/
def toUnsigned (t : Target) (x : ℚ) : Nat :=
  if -1 < x ∧ x < (UINT_RANGE : ℚ) then Int.toNat ⌊x⌋ else t.outOfRange x % UINT_RANGE

/-- Rounding of a rational to the nearest integer, ties to the even one. -/
def roundHalfEven (x : ℚ) : ℤ :=
  if x - ⌊x⌋ < 1 / 2 then ⌊x⌋
  else if 1 / 2 < x - ⌊x⌋ then ⌊x⌋ + 1
  else if ⌊x⌋ % 2 = 0 then ⌊x⌋
  else ⌊x⌋ + 1

/-- Rounding to the binary floating-point format with `p` significand bits and
least normal exponent `emin`, to nearest, ties to even: the quantum of `x` is
`2 ^ (e - (p - 1))`, where `e` is the exponent of the binade of `|x|`, or `emin`
for the subnormal values below it. -/
def roundBinary (p : ℕ) (emin : ℤ) (x : ℚ) : ℚ :=
  let e : ℤ := max (Int.log 2 |x|) emin
  let q : ℚ := 2 ^ (e - ((p : ℤ) - 1))
  (roundHalfEven (x / q) : ℚ) * q

/-- Rounding to binary32, the `float` of the source. -/
def roundFloat (x : ℚ) : ℚ := roundBinary 24 (-126) x

/-- Rounding to binary64, the `double` of the source. -/
def roundDouble (x : ℚ) : ℚ := roundBinary 53 (-1022) x

/-- The data members of `class Stepper` (`StepperDriver.h`), `sd` apart: the calls
made on `sd` are returned by the operations as `Event`s. -/
structure Stepper where
  stepper_CSPin : Nat
  stepper_ZeroPin : Nat
  stepper_CurrentLimit : Nat
  stepper_CoilInductance : ℚ
  stepper_CoilVoltage : ℚ
  stepper_MicroStepMode : Nat
  stepper_StepsPerRev : Nat
  stepper_RotationalVelocity : ℚ
  stepper_StepDelay : ℚ
  stepper_JointAngle : ℚ
  deriving DecidableEq

namespace Stepper

/-- Source `Stepper::GetDegreesPerFullStep`: `360.0/(float)stepper_StepsPerRev`, a
`double` quotient returned as a `float`.  The cast of the `uint16_t` member is
exact.  For `stepper_StepsPerRev = 0` the source yields `+inf`; the users of this
function treat that case on their own. -/
def GetDegreesPerFullStep (s : Stepper) : ℚ :=
  roundFloat (roundDouble (360 / (s.stepper_StepsPerRev : ℚ)))

/-- Source `Stepper::GetDegreesPerMicroStep`:
`GetDegreesPerFullStep()/((float)stepper_MicroStepMode)`, a `float` quotient.  The
quotient is infinite in the source when `stepper_StepsPerRev = 0` or
`stepper_MicroStepMode = 0`; in those configurations `ConvertDegreesToSteps` is
`0`, so that the step loop, the only user of this function, never evaluates it
(`ConvertDegreesToSteps_degenerate`). -/
def GetDegreesPerMicroStep (s : Stepper) : ℚ :=
  roundFloat (s.GetDegreesPerFullStep / (s.stepper_MicroStepMode : ℚ))

/-- The `float` value `NumFullSteps*((uint16_t)stepper_MicroStepMode)` that
`Stepper::ConvertDegreesToSteps` converts to `unsigned int`, with
`NumFullSteps = degrees/GetDegreesPerFullStep()`: a `float` quotient and a `float`
product.  With `stepper_StepsPerRev = 0` the divisor is `+inf` and the quotient of
a finite `degrees` by it is `0`. -/
def microstepsFloat (s : Stepper) (degrees : ℚ) : ℚ :=
  let NumFullSteps : ℚ :=
    if s.stepper_StepsPerRev = 0 then 0 else roundFloat (degrees / s.GetDegreesPerFullStep)
  roundFloat (NumFullSteps * (s.stepper_MicroStepMode : ℚ))

/-- Source `Stepper::ConvertDegreesToSteps`:
`NumFullSteps = degrees/GetDegreesPerFullStep()` and then
`(unsigned int)(NumFullSteps*((uint16_t)stepper_MicroStepMode))`. -/
def ConvertDegreesToSteps (t : Target) (s : Stepper) (degrees : ℚ) : Nat :=
  toUnsigned t (s.microstepsFloat degrees)

/-- Source `Stepper::ConvertRotationalVelocityToStepDelay`:
`StepsPerSec = ConvertDegreesToSteps(rotVel)`,
`StepDelayUS = 1000000.0/(float)StepsPerSec`, `return (unsigned int)StepDelayUS`:
the cast of the `unsigned int` rounds to `float`, the quotient is a `double` one
and is stored in a `float`.  For `StepsPerSec = 0` the quotient is `+inf` and its
conversion is the target's choice. -/
def ConvertRotationalVelocityToStepDelay (t : Target) (s : Stepper) (rotVel : ℚ) : Nat :=
  let StepsPerSec : Nat := s.ConvertDegreesToSteps t rotVel
  if StepsPerSec = 0 then t.infinite % UINT_RANGE
  else toUnsigned t (roundFloat (roundDouble (1000000 / roundFloat (StepsPerSec : ℚ))))

/-- Source `Stepper::SetRotationalVelocity`.  Its `tempStepDelay` is an `unsigned int`; the
comparison `tempStepDelay < 0.0` is made on its value converted to floating
point.  The assignment to the `float` member `stepper_StepDelay` stores that
value rounded to `float`. -/
def SetRotationalVelocity (t : Target) (s : Stepper) (degreesPerSec : ℚ) :
    stepper_response × Stepper :=
  if degreesPerSec = 0 then (WARNING_VEL_SET_ZERO, s)
  else if degreesPerSec > MAX_ROT_VEL then (ERROR_ABOVE_VEL_MAX, s)
  else
    let tempStepDelay : Nat := s.ConvertRotationalVelocityToStepDelay t degreesPerSec
    if (tempStepDelay : ℚ) < 0 then (ERROR_UNKNOWN, s)
    else (SUCCESS, { s with stepper_StepDelay := roundFloat (tempStepDelay : ℚ) })

/-- The `for` loop of `Stepper::RotateDegrees`, run for the given number of
iterations: each iteration calls `sd.step()`, adds
`2.0*sign*GetDegreesPerMicroStep()` to `stepper_JointAngle` (the product and the
sum are `double` ones, the sum is stored in the `float` member) and calls
`delayMicroseconds(stepper_StepDelay)`.  Returns the final object and the calls
made, in order. -/
def stepLoop (t : Target) (sign : ℤ) : Nat → Stepper → Stepper × List Event
  | 0, s => (s, [])
  | n + 1, s =>
    let s1 : Stepper :=
      { s with
        stepper_JointAngle :=
          roundFloat (roundDouble (s.stepper_JointAngle +
            roundDouble (2 * (sign : ℚ) * s.GetDegreesPerMicroStep))) }
    let r := stepLoop t sign n s1
    (r.1, Event.step :: Event.delayMicroseconds (toUnsigned t s.stepper_StepDelay) :: r.2)

/-- Source `Stepper::RotateDegrees`: the response, the object afterwards and the calls
made on the driver and the runtime, in order. -/
def RotateDegrees (t : Target) (s : Stepper) (degrees : ℚ) :
    stepper_response × Stepper × List Event :=
  if degrees > 0 then
    let ActualNumSteps : Nat := s.ConvertDegreesToSteps t degrees
    let r := stepLoop t 1 ActualNumSteps s
    (COMPLETED, r.1, Event.setDirection 0 :: r.2)
  else if degrees < 0 then
    let ActualNumSteps : Nat := s.ConvertDegreesToSteps t (-1 * degrees)
    let r := stepLoop t (-1) ActualNumSteps s
    (COMPLETED, r.1, Event.setDirection 1 :: r.2)
  else (COMPLETED, s, [])

/-- Source `Stepper::InitStepper`: the calls it makes, in order.  The line
`pinMode(stepper_ZeroPin, INPUT)` is commented out in the source; the call made is
`pinMode(14, INPUT)`. -/
def InitStepper (s : Stepper) : List Event :=
  [Event.setChipSelectPin s.stepper_CSPin,
    Event.pinModeInput 14,
    Event.delay 1,
    Event.resetSettings,
    Event.clearStatus,
    Event.setDecayModeAutoMixed,
    Event.setCurrentMilliamps36v4 s.stepper_CurrentLimit,
    Event.setStepMode s.stepper_MicroStepMode,
    Event.setDirection 0,
    Event.enableDriver]

/-- The `while(digitalRead(stepper_ZeroPin) == LOW)` loop of
`Stepper::FindZeroAngle`.  `sensor pin k` is the level returned by the read number
`k` (counted from 0) of the line `pin`; `response` is the running response.  The
loop has no bound in the source: `fuel` bounds the number of reads, and `none`
says that the sensor has not tripped within that many reads. -/
def zeroLoop (t : Target) (sensor : Nat → Nat → PinLevel) :
    Nat → Nat → stepper_response → Stepper → Option (stepper_response × Stepper × List Event)
  | 0, _, _, _ => none
  | fuel + 1, k, response, s =>
    match sensor s.stepper_ZeroPin k with
    | PinLevel.HIGH => some (response, s, [Event.digitalRead s.stepper_ZeroPin])
    | PinLevel.LOW =>
      let r := s.RotateDegrees t (1 / 2)
      match zeroLoop t sensor fuel (k + 1) r.1 r.2.1 with
      | none => none
      | some out =>
        some (out.1, out.2.1, Event.digitalRead s.stepper_ZeroPin :: (r.2.2 ++ out.2.2))

/-- Source `Stepper::FindZeroAngle`: `response = ERROR_UNKNOWN`,
`SetRotationalVelocity(25.0)` (its result is discarded), `sd.setDirection(0)`, the
search loop, `stepper_JointAngle = 0.0`, `return response`. -/
def FindZeroAngle (t : Target) (sensor : Nat → Nat → PinLevel) (fuel : Nat) (s : Stepper) :
    Option (stepper_response × Stepper × List Event) :=
  let response : stepper_response := ERROR_UNKNOWN
  let s1 : Stepper := (s.SetRotationalVelocity t 25).2
  match zeroLoop t sensor fuel 0 response s1 with
  | none => none
  | some out =>
    some (out.1, { out.2.1 with stepper_JointAngle := 0 }, Event.setDirection 0 :: out.2.2)

/-- Source `Stepper::GetJointAngle`. -/
def GetJointAngle (s : Stepper) : ℚ := s.stepper_JointAngle

end Stepper

/-- The constructor `Stepper::Stepper`.  It does not assign `stepper_JointAngle`;
`JointAngle0` is the value that member happens to hold (zero for an object of
static storage duration such as the two of `main.cpp`). -/
def Stepper.Stepper (t : Target) (JointAngle0 : ℚ) (CSPin ZeroPin CurrentLineLimit MicroStepMode
    StepsPerRev : Nat) (CoilInductance CoilVoltage : ℚ) : StepperDriver.Stepper :=
  let s0 : StepperDriver.Stepper :=
    { stepper_CSPin := CSPin
      stepper_ZeroPin := ZeroPin
      stepper_CurrentLimit := CurrentLineLimit
      stepper_CoilInductance := CoilInductance
      stepper_CoilVoltage := CoilVoltage
      stepper_MicroStepMode := MicroStepMode
      stepper_StepsPerRev := StepsPerRev
      stepper_RotationalVelocity := 45
      stepper_StepDelay := 0
      stepper_JointAngle := JointAngle0 }
  { s0 with
    stepper_StepDelay := roundFloat (s0.ConvertRotationalVelocityToStepDelay t 45 : ℚ) }

/-- A target that yields `0` wherever the conversion to `unsigned int` is
undefined. -/
def zeroTarget : Target := { outOfRange := fun _ => 0, infinite := 0 }

/-- A target that yields the largest `unsigned int` wherever the conversion is
undefined. -/
def saturatingTarget : Target :=
  { outOfRange := fun _ => 4294967295, infinite := 4294967295 }

/-- The base axis `Stepper2` of `main.cpp`: chip select 15, zero switch 14, current
limit 1680 mA, `HPSDStepMode::MicroStep64`, 200 steps per revolution, coil
inductance 3.2 mH, coil voltage 2.8 V, the two `double` literals converted to the
`float` parameters. -/
def Stepper2 (t : Target) : Stepper :=
  Stepper.Stepper t 0 15 14 1680 64 200 (roundFloat (roundDouble (16 / 5)))
    (roundFloat (roundDouble (14 / 5)))

/-- The shoulder axis `Stepper1` of `main.cpp`: chip select 33, zero switch 32,
current limit 1680 mA, `HPSDStepMode::MicroStep1`, 4000 steps per revolution. -/
def Stepper1 (t : Target) : Stepper :=
  Stepper.Stepper t 0 33 32 1680 1 4000 (roundFloat (roundDouble (16 / 5)))
    (roundFloat (roundDouble (14 / 5)))

/-- A zero-switch line that reads `LOW` (not tripped) on its first `N` reads and
`HIGH` (tripped) from then on. -/
def tripsAfter (N : Nat) : Nat → Nat → PinLevel :=
  fun _ k => if k < N then PinLevel.LOW else PinLevel.HIGH

/-- An axis with 200 full steps per revolution driven in full-step mode
(microstep mode 1), wired like `Stepper1` of `main.cpp`. -/
def fullStep200 (t : Target) : Stepper :=
  Stepper.Stepper t 0 33 32 1680 1 200 (roundFloat (roundDouble (16 / 5)))
    (roundFloat (roundDouble (14 / 5)))

end StepperDriver

namespace StepperDriver

open stepper_response

/-! ## The spec's step-delay formula -/

/-- Follows the spec's words (§4.4, `VelocityToStepDelay`):
`delay_us = 1,000,000 / microsteps_per_sec`, truncated to an integer.  The quotient
is a number only for a nonzero divisor. -/
def VelocityToStepDelay_spec (microstepsPerSec : Nat) : Option ℚ :=
  if microstepsPerSec = 0 then none
  else some ((⌊(1000000 : ℚ) / (microstepsPerSec : ℚ)⌋ : ℤ) : ℚ)

/-- Follows the spec's words (§4.4, `DegreesToMicrosteps`):
`round_down((degrees / DegreesPerFullStep) * microstepMode)` with
`DegreesPerFullStep = 360 / stepsPerRevolution`. -/
def DegreesToMicrosteps_spec (stepsPerRevolution microstepMode : Nat) (degrees : ℚ) : ℤ :=
  ⌊degrees / (360 / (stepsPerRevolution : ℚ)) * (microstepMode : ℚ)⌋

/-- The joint angle after one pulse of the step loop: the `double` sum of the angle
and of the `double` increment, stored in the `float` member. -/
def angleAfterPulse (increment angle : ℚ) : ℚ :=
  roundFloat (roundDouble (angle + increment))

/-- The pulses of one rotation as the driver sees them: each `step` is followed by
a hold of `us` microseconds. -/
def pulseTrain (us : Nat) : Nat → List Event
  | 0 => []
  | n + 1 => Event.step :: Event.delayMicroseconds us :: pulseTrain us n

/-- The calls of a zero search on the line `pin` that makes `n` rotations of `k`
pulses each: every read that finds the line `LOW` is followed by one rotation
(direction bit 0, then the pulses), and the last read finds the line `HIGH`. -/
def zeroSearchTrace (pin us k : Nat) : Nat → List Event
  | 0 => [Event.digitalRead pin]
  | n + 1 =>
    Event.digitalRead pin :: Event.setDirection 0 ::
      (pulseTrain us k ++ zeroSearchTrace pin us k n)

/-- Says whether a call is a direction command. -/
def isSetDirection : Event → Bool
  | Event.setDirection _ => true
  | _ => false

/-- Says whether every `step` of a list of calls is directly followed by
`delayMicroseconds(us)`. -/
def everyPulseHeld (us : Nat) : List Event → Bool
  | [] => true
  | Event.step :: Event.delayMicroseconds d :: rest => decide (d = us) && everyPulseHeld us rest
  | Event.step :: _ => false
  | _ :: rest => everyPulseHeld us rest


/-! ## Rounding -/

theorem roundHalfEven_floor_le (x : ℚ) : ⌊x⌋ ≤ roundHalfEven x := by
  unfold roundHalfEven
  split_ifs <;> omega

theorem roundHalfEven_le_floor_succ (x : ℚ) : roundHalfEven x ≤ ⌊x⌋ + 1 := by
  unfold roundHalfEven
  split_ifs <;> omega

theorem roundHalfEven_eq (x : ℚ) (m : ℤ) (h1 : 2 * (m : ℚ) - 1 < 2 * x)
    (h2 : 2 * x < 2 * (m : ℚ) + 1) : roundHalfEven x = m := by
  have hfl := Int.floor_le x
  have hlt := Int.lt_floor_add_one x
  unfold roundHalfEven
  split_ifs with ha hb hc
  · -- x - floor < 1/2 : floor = m
    have h3 : (m : ℚ) - 1 < (⌊x⌋ : ℚ) := by linarith
    have h4 : (⌊x⌋ : ℚ) < (m : ℚ) + 1 := by linarith
    have h3' : m - 1 < ⌊x⌋ := by exact_mod_cast h3
    have h4' : ⌊x⌋ < m + 1 := by exact_mod_cast h4
    omega
  · have h3 : (m : ℚ) - 1 < (⌊x⌋ : ℚ) + 1 := by linarith
    have h4 : (⌊x⌋ : ℚ) + 1 < (m : ℚ) + 1 := by linarith
    have h3' : m - 1 < ⌊x⌋ + 1 := by exact_mod_cast h3
    have h4' : ⌊x⌋ + 1 < m + 1 := by exact_mod_cast h4
    omega
  · exfalso
    have hx : x - ⌊x⌋ = 1 / 2 := le_antisymm (not_lt.mp hb) (not_lt.mp ha)
    have h3 : (2 * m - 1 : ℚ) < 2 * (⌊x⌋ : ℚ) + 1 := by linarith
    have h4 : 2 * (⌊x⌋ : ℚ) + 1 < (2 * m + 1 : ℚ) := by linarith
    have h3' : 2 * m - 1 < 2 * ⌊x⌋ + 1 := by exact_mod_cast h3
    have h4' : 2 * ⌊x⌋ + 1 < 2 * m + 1 := by exact_mod_cast h4
    omega
  · exfalso
    have hx : x - ⌊x⌋ = 1 / 2 := le_antisymm (not_lt.mp hb) (not_lt.mp ha)
    have h3 : (2 * m - 1 : ℚ) < 2 * (⌊x⌋ : ℚ) + 1 := by linarith
    have h4 : 2 * (⌊x⌋ : ℚ) + 1 < (2 * m + 1 : ℚ) := by linarith
    have h3' : 2 * m - 1 < 2 * ⌊x⌋ + 1 := by exact_mod_cast h3
    have h4' : 2 * ⌊x⌋ + 1 < 2 * m + 1 := by exact_mod_cast h4
    omega

theorem roundHalfEven_intCast (n : ℤ) : roundHalfEven (n : ℚ) = n :=
  roundHalfEven_eq _ n (by linarith) (by linarith)

/-- A tie is rounded to the even neighbour. -/
theorem roundHalfEven_tie (x : ℚ) (m : ℤ) (hx : 2 * x = 2 * (m : ℚ) + 1) :
    roundHalfEven x = if m % 2 = 0 then m else m + 1 := by
  have hfloor : ⌊x⌋ = m := by
    rw [Int.floor_eq_iff]
    constructor <;> linarith
  unfold roundHalfEven
  rw [hfloor]
  have h1 : ¬ (x - (m : ℚ) < 1 / 2) := by
    intro h
    linarith
  have h2 : ¬ ((1 : ℚ) / 2 < x - (m : ℚ)) := by
    intro h
    linarith
  rw [if_neg h1, if_neg h2]

theorem roundHalfEven_mono {x y : ℚ} (h : x ≤ y) : roundHalfEven x ≤ roundHalfEven y := by
  have hfl : ⌊x⌋ ≤ ⌊y⌋ := Int.floor_le_floor h
  rcases lt_or_eq_of_le hfl with hlt | heq
  · have h1 := roundHalfEven_le_floor_succ x
    have h2 := roundHalfEven_floor_le y
    omega
  · unfold roundHalfEven
    rw [← heq]
    have hxy : x - (⌊x⌋ : ℚ) ≤ y - (⌊x⌋ : ℚ) := by linarith
    split_ifs <;> first | omega | (exfalso; linarith)

theorem roundHalfEven_error (x : ℚ) : |(roundHalfEven x : ℚ) - x| ≤ 1 / 2 := by
  have hfl := Int.floor_le x
  have hlt := Int.lt_floor_add_one x
  rw [abs_le]
  unfold roundHalfEven
  split_ifs with ha hb hc <;> push_cast <;> constructor <;> linarith

/-- The exponent of the quantum of `x`: that of its binade, or `emin` below the
normal range. -/
theorem binade_eq (emin : ℤ) (x a : ℚ) (e : ℤ) (ha : |x| = a) (he1 : (2 : ℚ) ^ e ≤ a)
    (he2 : a < (2 : ℚ) ^ (e + 1)) (hemin : emin ≤ e) : max (Int.log 2 |x|) emin = e := by
  have hpos : (0 : ℚ) < a := lt_of_lt_of_le (by positivity) he1
  have hlog : Int.log 2 a = e := by
    have h1 : e ≤ Int.log 2 a := (Int.zpow_le_iff_le_log (by norm_num) hpos).mp (by exact_mod_cast he1)
    have h2 : Int.log 2 a < e + 1 :=
      (Int.lt_zpow_iff_log_lt (by norm_num) hpos).mp (by exact_mod_cast he2)
    omega
  rw [ha, hlog]
  exact max_eq_left hemin

/-- Evaluation of a rounding away from ties: `x` lies in the binade of exponent `e`
and strictly within half a quantum of `m` quanta. -/
theorem roundBinary_eq (p : ℕ) (emin : ℤ) (x a : ℚ) (e m : ℤ) (ha : |x| = a)
    (he1 : (2 : ℚ) ^ e ≤ a) (he2 : a < (2 : ℚ) ^ (e + 1)) (hemin : emin ≤ e)
    (h1 : (2 * (m : ℚ) - 1) * 2 ^ (e - ((p : ℤ) - 1)) < 2 * x)
    (h2 : 2 * x < (2 * (m : ℚ) + 1) * 2 ^ (e - ((p : ℤ) - 1))) :
    roundBinary p emin x = (m : ℚ) * 2 ^ (e - ((p : ℤ) - 1)) := by
  unfold roundBinary
  simp only
  rw [binade_eq emin x a e ha he1 he2 hemin]
  have hq : (0 : ℚ) < 2 ^ (e - ((p : ℤ) - 1)) := by positivity
  rw [roundHalfEven_eq (x / 2 ^ (e - ((p : ℤ) - 1))) m]
  · rw [← mul_div_assoc, lt_div_iff₀ hq]
    exact h1
  · rw [← mul_div_assoc, div_lt_iff₀ hq]
    exact h2

theorem roundBinary_zero (p : ℕ) (emin : ℤ) : roundBinary p emin 0 = 0 := by
  unfold roundBinary
  simp [roundHalfEven]

/-- Every `m * 2 ^ j` with `|m| < 2 ^ p` and `j` not below the least quantum is a
value of the format: rounding leaves it as it is. -/
theorem roundBinary_fixed (p : ℕ) (emin : ℤ) (m j : ℤ) (hm : |m| < 2 ^ p)
    (hj : emin - ((p : ℤ) - 1) ≤ j) :
    roundBinary p emin ((m : ℚ) * 2 ^ j) = (m : ℚ) * 2 ^ j := by
  by_cases hm0 : m = 0
  · subst hm0
    simp [roundBinary_zero]
  have h2 : (2 : ℚ) ≠ 0 := by norm_num
  have hxpos : (0 : ℚ) < |(m : ℚ) * 2 ^ j| := by
    rw [abs_pos]
    exact mul_ne_zero (by exact_mod_cast hm0) (zpow_ne_zero _ h2)
  have hlt : |(m : ℚ) * 2 ^ j| < (2 : ℚ) ^ ((p : ℤ) + j) := by
    rw [abs_mul, abs_of_pos (by positivity : (0 : ℚ) < 2 ^ j), zpow_add₀ h2]
    have : |(m : ℚ)| < (2 : ℚ) ^ (p : ℤ) := by
      rw [zpow_natCast]
      exact_mod_cast hm
    exact mul_lt_mul_of_pos_right this (by positivity)
  have hlog : Int.log 2 |(m : ℚ) * 2 ^ j| < (p : ℤ) + j :=
    (Int.lt_zpow_iff_log_lt (by norm_num) hxpos).mp (by exact_mod_cast hlt)
  unfold roundBinary
  simp only
  set e : ℤ := max (Int.log 2 |(m : ℚ) * 2 ^ j|) emin with he
  have hek : 0 ≤ j - (e - ((p : ℤ) - 1)) := by
    have : e ≤ (p : ℤ) + j - 1 := max_le (by omega) (by omega)
    omega
  obtain ⟨k, hk⟩ := Int.eq_ofNat_of_zero_le hek
  have hdiv : (m : ℚ) * 2 ^ j / 2 ^ (e - ((p : ℤ) - 1)) = ((m * 2 ^ k : ℤ) : ℚ) := by
    rw [mul_div_assoc, ← zpow_sub₀ h2, hk, zpow_natCast]
    push_cast
    ring
  rw [hdiv, roundHalfEven_intCast]
  push_cast
  rw [mul_assoc, ← zpow_natCast, ← hk, ← zpow_add₀ h2]
  congr 2
  ring

theorem roundBinary_natCast (p : ℕ) (emin : ℤ) (n : ℕ) (hn : n < 2 ^ p)
    (hemin : emin - ((p : ℤ) - 1) ≤ 0) : roundBinary p emin (n : ℚ) = (n : ℚ) := by
  have := roundBinary_fixed p emin (n : ℤ) 0 (by
    rw [abs_of_nonneg (by positivity)]
    exact_mod_cast hn) hemin
  simpa using this

theorem roundBinary_nonneg (p : ℕ) (emin : ℤ) (x : ℚ) (hx : 0 ≤ x) :
    0 ≤ roundBinary p emin x := by
  unfold roundBinary
  simp only
  have hq : (0 : ℚ) < 2 ^ (max (Int.log 2 |x|) emin - ((p : ℤ) - 1)) := by positivity
  have h0 : roundHalfEven 0 ≤ roundHalfEven (x / 2 ^ (max (Int.log 2 |x|) emin - ((p : ℤ) - 1))) :=
    roundHalfEven_mono (div_nonneg hx (le_of_lt hq))
  have hz : roundHalfEven 0 = 0 := by
    have := roundHalfEven_intCast 0
    simpa using this
  rw [hz] at h0
  have : (0 : ℚ) ≤ (roundHalfEven (x / 2 ^ (max (Int.log 2 |x|) emin - ((p : ℤ) - 1))) : ℚ) := by
    exact_mod_cast h0
  exact mul_nonneg this (le_of_lt hq)

/-- Rounding is monotone on the non-negative rationals. -/
theorem roundBinary_mono (p : ℕ) (emin : ℤ) (hp : 1 ≤ p) {x y : ℚ} (hx : 0 ≤ x)
    (hxy : x ≤ y) : roundBinary p emin x ≤ roundBinary p emin y := by
  rcases eq_or_lt_of_le hx with hx0 | hxpos
  · rw [← hx0, roundBinary_zero]
    exact roundBinary_nonneg p emin y (le_trans hx hxy)
  have hypos : 0 < y := lt_of_lt_of_le hxpos hxy
  have h2 : (2 : ℚ) ≠ 0 := by norm_num
  have hlog : Int.log 2 x ≤ Int.log 2 y := Int.log_mono_right hxpos hxy
  unfold roundBinary
  simp only
  rw [abs_of_pos hxpos, abs_of_pos hypos]
  set ex : ℤ := max (Int.log 2 x) emin with hex
  set ey : ℤ := max (Int.log 2 y) emin with hey
  have hexy : ex ≤ ey := max_le_max hlog le_rfl
  have hqx : (0 : ℚ) < 2 ^ (ex - ((p : ℤ) - 1)) := by positivity
  have hqy : (0 : ℚ) < 2 ^ (ey - ((p : ℤ) - 1)) := by positivity
  rcases eq_or_lt_of_le hexy with heq | hlt
  · rw [← heq]
    have := roundHalfEven_mono (div_le_div_of_nonneg_right hxy (le_of_lt hqx))
    have hc : (roundHalfEven (x / 2 ^ (ex - ((p : ℤ) - 1))) : ℚ) ≤
        (roundHalfEven (y / 2 ^ (ex - ((p : ℤ) - 1))) : ℚ) := by exact_mod_cast this
    exact mul_le_mul_of_nonneg_right hc (le_of_lt hqx)
  · have heylog : ey = Int.log 2 y := by
      rcases max_cases (Int.log 2 y) emin with ⟨h, _⟩ | ⟨h, _⟩
      · exact h
      · exfalso
        have : emin ≤ ex := le_max_right _ _
        omega
    -- upper bound for the rounding of x
    have hxlt : x < (2 : ℚ) ^ (ex + 1) := by
      have h1 : x < ((2 : ℕ) : ℚ) ^ (Int.log 2 x + 1) := Int.lt_zpow_succ_log_self (by norm_num) x
      have h1' : x < (2 : ℚ) ^ (Int.log 2 x + 1) := by exact_mod_cast h1
      have h3 : (2 : ℚ) ^ (Int.log 2 x + 1) ≤ (2 : ℚ) ^ (ex + 1) :=
        zpow_le_zpow_right₀ (by norm_num) (by
          have : Int.log 2 x ≤ ex := le_max_left _ _
          omega)
      exact lt_of_lt_of_le h1' h3
    have hdivx : x / 2 ^ (ex - ((p : ℤ) - 1)) ≤ (((2 : ℤ) ^ p : ℤ) : ℚ) := by
      rw [div_le_iff₀ hqx]
      push_cast
      rw [← zpow_natCast, ← zpow_add₀ h2]
      have : (p : ℤ) + (ex - ((p : ℤ) - 1)) = ex + 1 := by ring
      rw [this]
      exact le_of_lt hxlt
    have hrx : roundHalfEven (x / 2 ^ (ex - ((p : ℤ) - 1))) ≤ (2 : ℤ) ^ p := by
      have := roundHalfEven_mono hdivx
      rwa [roundHalfEven_intCast] at this
    have hfx : (roundHalfEven (x / 2 ^ (ex - ((p : ℤ) - 1))) : ℚ) * 2 ^ (ex - ((p : ℤ) - 1)) ≤
        (2 : ℚ) ^ (ex + 1) := by
      have hc : (roundHalfEven (x / 2 ^ (ex - ((p : ℤ) - 1))) : ℚ) ≤ (2 : ℚ) ^ (p : ℤ) := by
        rw [zpow_natCast]
        exact_mod_cast hrx
      calc (roundHalfEven (x / 2 ^ (ex - ((p : ℤ) - 1))) : ℚ) * 2 ^ (ex - ((p : ℤ) - 1))
          ≤ (2 : ℚ) ^ (p : ℤ) * 2 ^ (ex - ((p : ℤ) - 1)) :=
            mul_le_mul_of_nonneg_right hc (le_of_lt hqx)
        _ = (2 : ℚ) ^ (ex + 1) := by
            rw [← zpow_add₀ h2]
            congr 1
            ring
    -- lower bound for the rounding of y
    have hyge : (2 : ℚ) ^ ey ≤ y := by
      rw [heylog]
      have h1 : ((2 : ℕ) : ℚ) ^ Int.log 2 y ≤ y := Int.zpow_log_le_self (by norm_num) hypos
      exact_mod_cast h1
    have hp1 : ((p - 1 : ℕ) : ℤ) = (p : ℤ) - 1 := by omega
    have hdivy : (((2 : ℤ) ^ (p - 1) : ℤ) : ℚ) ≤ y / 2 ^ (ey - ((p : ℤ) - 1)) := by
      rw [le_div_iff₀ hqy]
      push_cast
      rw [← zpow_natCast, hp1, ← zpow_add₀ h2]
      have : (p : ℤ) - 1 + (ey - ((p : ℤ) - 1)) = ey := by ring
      rw [this]
      exact hyge
    have hry : (2 : ℤ) ^ (p - 1) ≤ roundHalfEven (y / 2 ^ (ey - ((p : ℤ) - 1))) := by
      have := roundHalfEven_mono hdivy
      rwa [roundHalfEven_intCast] at this
    have hfy : (2 : ℚ) ^ ey ≤
        (roundHalfEven (y / 2 ^ (ey - ((p : ℤ) - 1))) : ℚ) * 2 ^ (ey - ((p : ℤ) - 1)) := by
      have hc : (2 : ℚ) ^ ((p : ℤ) - 1) ≤ (roundHalfEven (y / 2 ^ (ey - ((p : ℤ) - 1))) : ℚ) := by
        rw [← hp1, zpow_natCast]
        exact_mod_cast hry
      calc (2 : ℚ) ^ ey = (2 : ℚ) ^ ((p : ℤ) - 1) * 2 ^ (ey - ((p : ℤ) - 1)) := by
            rw [← zpow_add₀ h2]
            congr 1
            ring
        _ ≤ _ := mul_le_mul_of_nonneg_right hc (le_of_lt hqy)
    have hstep : (2 : ℚ) ^ (ex + 1) ≤ (2 : ℚ) ^ ey :=
      zpow_le_zpow_right₀ (by norm_num) (by omega)
    exact le_trans hfx (le_trans hstep hfy)

/-- The rounding error is at most half a quantum. -/
theorem roundBinary_error (p : ℕ) (emin : ℤ) (x : ℚ) :
    |roundBinary p emin x - x| ≤ 2 ^ (max (Int.log 2 |x|) emin - (p : ℤ)) := by
  have h2 : (2 : ℚ) ≠ 0 := by norm_num
  unfold roundBinary
  simp only
  set e : ℤ := max (Int.log 2 |x|) emin with he
  have hq : (0 : ℚ) < 2 ^ (e - ((p : ℤ) - 1)) := by positivity
  have herr := roundHalfEven_error (x / 2 ^ (e - ((p : ℤ) - 1)))
  have hx : x = x / 2 ^ (e - ((p : ℤ) - 1)) * 2 ^ (e - ((p : ℤ) - 1)) := by
    field_simp
  have : (roundHalfEven (x / 2 ^ (e - ((p : ℤ) - 1))) : ℚ) * 2 ^ (e - ((p : ℤ) - 1)) - x =
      ((roundHalfEven (x / 2 ^ (e - ((p : ℤ) - 1))) : ℚ) - x / 2 ^ (e - ((p : ℤ) - 1))) *
        2 ^ (e - ((p : ℤ) - 1)) := by
    rw [sub_mul]
    congr 1
  rw [this, abs_mul, abs_of_pos hq]
  have hhalf : (2 : ℚ) ^ (e - (p : ℤ)) = 1 / 2 * 2 ^ (e - ((p : ℤ) - 1)) := by
    have : e - (p : ℤ) = -1 + (e - ((p : ℤ) - 1)) := by ring
    rw [this, zpow_add₀ h2]
    norm_num
  rw [hhalf]
  exact mul_le_mul_of_nonneg_right herr (le_of_lt hq)

/-- In the normal range the rounding error is at most `2 ^ (-p)` of the value. -/
theorem roundBinary_error_rel (p : ℕ) (emin : ℤ) (x : ℚ) (hx : (2 : ℚ) ^ emin ≤ x) :
    |roundBinary p emin x - x| ≤ x * 2 ^ (-(p : ℤ)) := by
  have h2 : (2 : ℚ) ≠ 0 := by norm_num
  have hxpos : 0 < x := lt_of_lt_of_le (by positivity) hx
  have herr := roundBinary_error p emin x
  rw [abs_of_pos hxpos] at herr
  have hemin : emin ≤ Int.log 2 x :=
    (Int.zpow_le_iff_le_log (by norm_num) hxpos).mp (by exact_mod_cast hx)
  rw [max_eq_left hemin] at herr
  have hle : (2 : ℚ) ^ Int.log 2 x ≤ x := by
    have h1 : ((2 : ℕ) : ℚ) ^ Int.log 2 x ≤ x := Int.zpow_log_le_self (by norm_num) hxpos
    exact_mod_cast h1
  calc |roundBinary p emin x - x| ≤ 2 ^ (Int.log 2 x - (p : ℤ)) := herr
    _ = 2 ^ Int.log 2 x * 2 ^ (-(p : ℤ)) := by
        rw [← zpow_add₀ h2]
        congr 1
    _ ≤ x * 2 ^ (-(p : ℤ)) := mul_le_mul_of_nonneg_right hle (by positivity)

/-! ## Rounding to `float` and to `double` -/

/-- Evaluation of a `float` rounding away from ties, with the quantum `q` and the
result `r` written out. -/
theorem roundFloat_eval (x a q r : ℚ) (e m : ℤ) (ha : |x| = a) (hq : (2 : ℚ) ^ (e - 23) = q)
    (he1 : (2 : ℚ) ^ e ≤ a) (he2 : a < (2 : ℚ) ^ (e + 1)) (hemin : -126 ≤ e)
    (h1 : (2 * (m : ℚ) - 1) * q < 2 * x) (h2 : 2 * x < (2 * (m : ℚ) + 1) * q)
    (hr : (m : ℚ) * q = r) : roundFloat x = r := by
  have h := roundBinary_eq 24 (-126) x a e m ha he1 he2 hemin
  have h23 : e - (((24 : ℕ) : ℤ) - 1) = e - 23 := by norm_num
  rw [h23, hq] at h
  rw [← hr]
  exact h h1 h2

/-- Evaluation of a `double` rounding away from ties. -/
theorem roundDouble_eval (x a q r : ℚ) (e m : ℤ) (ha : |x| = a) (hq : (2 : ℚ) ^ (e - 52) = q)
    (he1 : (2 : ℚ) ^ e ≤ a) (he2 : a < (2 : ℚ) ^ (e + 1)) (hemin : -1022 ≤ e)
    (h1 : (2 * (m : ℚ) - 1) * q < 2 * x) (h2 : 2 * x < (2 * (m : ℚ) + 1) * q)
    (hr : (m : ℚ) * q = r) : roundDouble x = r := by
  have h := roundBinary_eq 53 (-1022) x a e m ha he1 he2 hemin
  have h52 : e - (((53 : ℕ) : ℤ) - 1) = e - 52 := by norm_num
  rw [h52, hq] at h
  rw [← hr]
  exact h h1 h2

theorem roundFloat_zero : roundFloat 0 = 0 := roundBinary_zero 24 (-126)

theorem roundDouble_zero : roundDouble 0 = 0 := roundBinary_zero 53 (-1022)

theorem roundFloat_mono {x y : ℚ} (hx : 0 ≤ x) (hxy : x ≤ y) : roundFloat x ≤ roundFloat y :=
  roundBinary_mono 24 (-126) (by norm_num) hx hxy

theorem roundDouble_mono {x y : ℚ} (hx : 0 ≤ x) (hxy : x ≤ y) :
    roundDouble x ≤ roundDouble y :=
  roundBinary_mono 53 (-1022) (by norm_num) hx hxy

theorem roundFloat_nonneg {x : ℚ} (hx : 0 ≤ x) : 0 ≤ roundFloat x :=
  roundBinary_nonneg 24 (-126) x hx

theorem roundDouble_nonneg {x : ℚ} (hx : 0 ≤ x) : 0 ≤ roundDouble x :=
  roundBinary_nonneg 53 (-1022) x hx

/-- Every `m * 2 ^ j` with `|m| < 2 ^ 24` and `j ≥ -149` is a `float`. -/
theorem roundFloat_fixed (m j : ℤ) (hm : |m| < 2 ^ 24) (hj : -149 ≤ j) :
    roundFloat ((m : ℚ) * 2 ^ j) = (m : ℚ) * 2 ^ j :=
  roundBinary_fixed 24 (-126) m j hm (by
    have : (-126 : ℤ) - (((24 : ℕ) : ℤ) - 1) = -149 := by norm_num
    rw [this]
    exact hj)

/-- Every `m * 2 ^ j` with `|m| < 2 ^ 53` and `j ≥ -1074` is a `double`. -/
theorem roundDouble_fixed (m j : ℤ) (hm : |m| < 2 ^ 53) (hj : -1074 ≤ j) :
    roundDouble ((m : ℚ) * 2 ^ j) = (m : ℚ) * 2 ^ j :=
  roundBinary_fixed 53 (-1022) m j hm (by
    have : (-1022 : ℤ) - (((53 : ℕ) : ℤ) - 1) = -1074 := by norm_num
    rw [this]
    exact hj)

theorem roundFloat_natCast (n : ℕ) (hn : n < 16777216) : roundFloat (n : ℚ) = (n : ℚ) :=
  roundBinary_natCast 24 (-126) n (by norm_num; exact hn) (by norm_num)

theorem roundDouble_natCast (n : ℕ) (hn : n < 9007199254740992) :
    roundDouble (n : ℚ) = (n : ℚ) :=
  roundBinary_natCast 53 (-1022) n (by norm_num; exact hn) (by norm_num)

/-- In its normal range a `float` rounding changes the value by at most
`2 ^ (-24)` of it. -/
theorem roundFloat_error_rel (x : ℚ) (hx : (2 : ℚ) ^ (-126 : ℤ) ≤ x) :
    |roundFloat x - x| ≤ x / 16777216 := by
  have h := roundBinary_error_rel 24 (-126) x hx
  have h24 : (2 : ℚ) ^ (-((24 : ℕ) : ℤ)) = 1 / 16777216 := by norm_num
  rw [h24] at h
  unfold roundFloat
  linarith

/-- In its normal range a `double` rounding changes the value by at most
`2 ^ (-53)` of it. -/
theorem roundDouble_error_rel (x : ℚ) (hx : (2 : ℚ) ^ (-1022 : ℤ) ≤ x) :
    |roundDouble x - x| ≤ x / 9007199254740992 := by
  have h := roundBinary_error_rel 53 (-1022) x hx
  have h53 : (2 : ℚ) ^ (-((53 : ℕ) : ℤ)) = 1 / 9007199254740992 := by norm_num
  rw [h53] at h
  unfold roundDouble
  linarith

/-- Evaluation of a rounding at a tie: `x` lies in the binade of exponent `e`,
exactly half a quantum above `m` quanta, and goes to the even neighbour. -/
theorem roundBinary_tie (p : ℕ) (emin : ℤ) (x a : ℚ) (e m : ℤ) (ha : |x| = a)
    (he1 : (2 : ℚ) ^ e ≤ a) (he2 : a < (2 : ℚ) ^ (e + 1)) (hemin : emin ≤ e)
    (hx : 2 * x = (2 * (m : ℚ) + 1) * 2 ^ (e - ((p : ℤ) - 1))) :
    roundBinary p emin x =
      ((if m % 2 = 0 then m else m + 1 : ℤ) : ℚ) * 2 ^ (e - ((p : ℤ) - 1)) := by
  unfold roundBinary
  simp only
  rw [binade_eq emin x a e ha he1 he2 hemin]
  have hq : (0 : ℚ) < 2 ^ (e - ((p : ℤ) - 1)) := by positivity
  rw [roundHalfEven_tie (x / 2 ^ (e - ((p : ℤ) - 1))) m]
  rw [← mul_div_assoc, hx]
  field_simp

/-- Evaluation of a `float` rounding at a tie. -/
theorem roundFloat_tie_eval (x a q r : ℚ) (e m : ℤ) (ha : |x| = a)
    (hq : (2 : ℚ) ^ (e - 23) = q) (he1 : (2 : ℚ) ^ e ≤ a) (he2 : a < (2 : ℚ) ^ (e + 1))
    (hemin : -126 ≤ e) (hx : 2 * x = (2 * (m : ℚ) + 1) * q)
    (hr : ((if m % 2 = 0 then m else m + 1 : ℤ) : ℚ) * q = r) : roundFloat x = r := by
  have h := roundBinary_tie 24 (-126) x a e m ha he1 he2 hemin
  have h23 : e - (((24 : ℕ) : ℤ) - 1) = e - 23 := by norm_num
  rw [h23, hq] at h
  rw [← hr]
  exact h hx

/-! ## Conversions -/

theorem toUnsigned_lt (t : Target) (x : ℚ) : toUnsigned t x < UINT_RANGE := by
  unfold toUnsigned
  split
  · rename_i h
    have h2 : ⌊x⌋ < (UINT_RANGE : ℤ) := by
      have : ((⌊x⌋ : ℤ) : ℚ) ≤ x := Int.floor_le x
      have h3 : ((⌊x⌋ : ℤ) : ℚ) < ((UINT_RANGE : ℤ) : ℚ) := by
        push_cast
        exact lt_of_le_of_lt this h.2
      exact_mod_cast h3
    simp only [UINT_RANGE] at h2 ⊢
    omega
  · exact Nat.mod_lt _ (by decide)

theorem toUnsigned_eq (t : Target) (x : ℚ) (n : Nat) (h1 : (n : ℚ) ≤ x)
    (h2 : x < (n : ℚ) + 1) (h3 : n < UINT_RANGE) : toUnsigned t x = n := by
  have hn : (0 : ℚ) ≤ (n : ℚ) := Nat.cast_nonneg n
  have hr : -1 < x ∧ x < (UINT_RANGE : ℚ) := by
    refine ⟨by linarith, lt_of_lt_of_le h2 ?_⟩
    have : n + 1 ≤ UINT_RANGE := h3
    exact_mod_cast this
  unfold toUnsigned
  rw [if_pos hr]
  have hf : ⌊x⌋ = (n : ℤ) := by
    rw [Int.floor_eq_iff]
    exact ⟨by exact_mod_cast h1, by exact_mod_cast h2⟩
  rw [hf]
  exact Int.toNat_natCast _

/-- A value that came out of an `unsigned int` converts back to itself. -/
theorem toUnsigned_natCast (t : Target) (n : Nat) (h : n < UINT_RANGE) :
    toUnsigned t (n : ℚ) = n :=
  toUnsigned_eq t _ n le_rfl (by linarith) h

/-- Within the range of `unsigned int` the conversion of a non-negative value is
its integer part. -/
theorem toUnsigned_of_nonneg (t : Target) (x : ℚ) (h0 : 0 ≤ x) (h1 : x < (UINT_RANGE : ℚ)) :
    ((toUnsigned t x : ℕ) : ℤ) = ⌊x⌋ := by
  unfold toUnsigned
  rw [if_pos ⟨by linarith, h1⟩]
  exact Int.toNat_of_nonneg (Int.floor_nonneg.mpr h0)

/-- The truncation of the quotient `1000000.0/(float)n`, computed in `double` and
stored in a `float`, is the integer quotient `1000000 / n`: the roundings never
reach the next integer. -/
theorem stepDelay_quotient (t : Target) (n : ℕ) (hn : 1 ≤ n) :
    toUnsigned t (roundFloat (roundDouble (1000000 / roundFloat (n : ℚ)))) = 1000000 / n := by
  have hnq : (0 : ℚ) < (n : ℚ) := by exact_mod_cast hn
  rcases Nat.lt_or_ge 1000000 n with hbig | hsmall
  · -- more than a million steps per second: the quotient is below 1
    have ha : (1000001 : ℚ) ≤ roundFloat (n : ℚ) := by
      have h1 : roundFloat ((1000001 : ℕ) : ℚ) ≤ roundFloat (n : ℚ) :=
        roundFloat_mono (by positivity) (by exact_mod_cast hbig)
      rw [roundFloat_natCast 1000001 (by norm_num)] at h1
      exact_mod_cast h1
    have hapos : (0 : ℚ) < roundFloat (n : ℚ) := by linarith
    have hx0 : (0 : ℚ) ≤ 1000000 / roundFloat (n : ℚ) := by positivity
    have hz : (1000000 : ℚ) / roundFloat (n : ℚ) ≤ ((16777215 : ℤ) : ℚ) * 2 ^ (-24 : ℤ) := by
      rw [div_le_iff₀ hapos]
      norm_num
      linarith
    have hd : roundDouble (1000000 / roundFloat (n : ℚ)) ≤ ((16777215 : ℤ) : ℚ) * 2 ^ (-24 : ℤ) := by
      have := roundDouble_mono hx0 hz
      rwa [roundDouble_fixed 16777215 (-24) (by norm_num) (by norm_num)] at this
    have hf : roundFloat (roundDouble (1000000 / roundFloat (n : ℚ))) ≤
        ((16777215 : ℤ) : ℚ) * 2 ^ (-24 : ℤ) := by
      have := roundFloat_mono (roundDouble_nonneg hx0) hd
      rwa [roundFloat_fixed 16777215 (-24) (by norm_num) (by norm_num)] at this
    have hnn : (0 : ℚ) ≤ roundFloat (roundDouble (1000000 / roundFloat (n : ℚ))) :=
      roundFloat_nonneg (roundDouble_nonneg hx0)
    rw [Nat.div_eq_of_lt hbig]
    apply toUnsigned_eq t _ 0
    · simpa using hnn
    · have : ((16777215 : ℤ) : ℚ) * 2 ^ (-24 : ℤ) < 1 := by norm_num
      simp only [Nat.cast_zero, zero_add]
      linarith
    · norm_num [UINT_RANGE]
  · -- at most a million steps per second: the cast of `n` is exact
    rw [roundFloat_natCast n (by omega)]
    set k : ℕ := 1000000 / n with hk
    have hkn : k * n ≤ 1000000 := Nat.div_mul_le_self 1000000 n
    have hkn' : 1000000 < (k + 1) * n := by
      have := Nat.lt_mul_div_succ 1000000 (by omega : 0 < n)
      rw [Nat.mul_comm] at this
      exact this
    have hknq : (k : ℚ) * (n : ℚ) ≤ 1000000 := by exact_mod_cast hkn
    have hknq' : (1000000 : ℚ) + 1 ≤ ((k : ℚ) + 1) * (n : ℚ) := by
      have : 1000000 + 1 ≤ (k + 1) * n := hkn'
      exact_mod_cast this
    have hnle : (n : ℚ) ≤ 1000000 := by exact_mod_cast hsmall
    have hx1 : (1 : ℚ) ≤ 1000000 / (n : ℚ) := by
      rw [le_div_iff₀ hnq]
      linarith
    have hkx : (k : ℚ) ≤ 1000000 / (n : ℚ) := by
      rw [le_div_iff₀ hnq]
      exact hknq
    have hk24 : k < 16777216 := by
      have : k ≤ 1000000 := Nat.div_le_self _ _
      omega
    -- lower bound: `k` is a value of both formats
    have hd_lo : (k : ℚ) ≤ roundDouble (1000000 / (n : ℚ)) := by
      have := roundDouble_mono (Nat.cast_nonneg k) hkx
      rwa [roundDouble_natCast k (by omega)] at this
    have hf_lo : (k : ℚ) ≤ roundFloat (roundDouble (1000000 / (n : ℚ))) := by
      have := roundFloat_mono (Nat.cast_nonneg k) hd_lo
      rwa [roundFloat_natCast k hk24] at this
    -- upper bound: the two relative errors
    have hd1 : (1 : ℚ) ≤ roundDouble (1000000 / (n : ℚ)) := by
      have := roundDouble_mono (by norm_num : (0 : ℚ) ≤ ((1 : ℕ) : ℚ))
        (by simpa using hx1 : ((1 : ℕ) : ℚ) ≤ 1000000 / (n : ℚ))
      rwa [roundDouble_natCast 1 (by norm_num), Nat.cast_one] at this
    have hd_err := roundDouble_error_rel (1000000 / (n : ℚ))
      (le_trans (by norm_num) hx1)
    have hf_err := roundFloat_error_rel (roundDouble (1000000 / (n : ℚ)))
      (le_trans (by norm_num) hd1)
    rw [abs_le] at hd_err hf_err
    have hxn : 1000000 / (n : ℚ) * (n : ℚ) = 1000000 := by field_simp
    have hup : roundFloat (roundDouble (1000000 / (n : ℚ))) < (k : ℚ) + 1 := by
      have h1 : roundDouble (1000000 / (n : ℚ)) ≤
          1000000 / (n : ℚ) * (1 + 1 / 9007199254740992) := by linarith [hd_err.2]
      have h2 : roundFloat (roundDouble (1000000 / (n : ℚ))) ≤
          roundDouble (1000000 / (n : ℚ)) * (1 + 1 / 16777216) := by linarith [hf_err.2]
      have h3 : roundFloat (roundDouble (1000000 / (n : ℚ))) ≤
          1000000 / (n : ℚ) * (1 + 1 / 9007199254740992) * (1 + 1 / 16777216) :=
        le_trans h2 (mul_le_mul_of_nonneg_right h1 (by norm_num))
      have h4 : roundFloat (roundDouble (1000000 / (n : ℚ))) * (n : ℚ) <
          ((k : ℚ) + 1) * (n : ℚ) := by
        calc roundFloat (roundDouble (1000000 / (n : ℚ))) * (n : ℚ)
            ≤ 1000000 / (n : ℚ) * (1 + 1 / 9007199254740992) * (1 + 1 / 16777216) * (n : ℚ) :=
              mul_le_mul_of_nonneg_right h3 (le_of_lt hnq)
          _ = 1000000 * ((1 + 1 / 9007199254740992) * (1 + 1 / 16777216)) := by
              rw [← hxn]
              field_simp
              ring
          _ < 1000000 + 1 := by norm_num
          _ ≤ ((k : ℚ) + 1) * (n : ℚ) := hknq'
      exact lt_of_mul_lt_mul_right h4 (le_of_lt hnq)
    exact toUnsigned_eq t _ k hf_lo hup (by
      simp only [UINT_RANGE]
      omega)

theorem ConvertRotationalVelocityToStepDelay_lt (t : Target) (s : Stepper) (v : ℚ) :
    s.ConvertRotationalVelocityToStepDelay t v < UINT_RANGE := by
  unfold Stepper.ConvertRotationalVelocityToStepDelay
  simp only
  split
  · exact Nat.mod_lt _ (by decide)
  · exact toUnsigned_lt t _

/-- With `n ≥ 1` microsteps per second the delay is the truncated quotient
`1000000 / n`. -/
theorem ConvertRotationalVelocityToStepDelay_eq (t : Target) (s : Stepper) (rotVel : ℚ)
    (n : Nat) (hn : 1 ≤ n) (h : s.ConvertDegreesToSteps t rotVel = n) :
    s.ConvertRotationalVelocityToStepDelay t rotVel = 1000000 / n := by
  unfold Stepper.ConvertRotationalVelocityToStepDelay
  simp only [h]
  rw [if_neg (by omega)]
  exact stepDelay_quotient t n hn

/-- A delay that is a quotient `1000000 / n` is stored in the `float` member as it
is. -/
theorem roundFloat_delay (n : ℕ) : roundFloat ((1000000 / n : ℕ) : ℚ) = ((1000000 / n : ℕ) : ℚ) :=
  roundFloat_natCast _ (by
    have : 1000000 / n ≤ 1000000 := Nat.div_le_self _ _
    omega)

/-- The step count depends on the configuration only. -/
theorem microstepsFloat_congr (s s1 : Stepper) (degrees : ℚ)
    (h1 : s1.stepper_StepsPerRev = s.stepper_StepsPerRev)
    (h2 : s1.stepper_MicroStepMode = s.stepper_MicroStepMode) :
    s1.microstepsFloat degrees = s.microstepsFloat degrees := by
  unfold Stepper.microstepsFloat Stepper.GetDegreesPerFullStep
  rw [h1, h2]

theorem ConvertDegreesToSteps_congr (t : Target) (s s1 : Stepper) (degrees : ℚ)
    (h1 : s1.stepper_StepsPerRev = s.stepper_StepsPerRev)
    (h2 : s1.stepper_MicroStepMode = s.stepper_MicroStepMode) :
    s1.ConvertDegreesToSteps t degrees = s.ConvertDegreesToSteps t degrees := by
  unfold Stepper.ConvertDegreesToSteps
  rw [microstepsFloat_congr s s1 degrees h1 h2]

/-- In a configuration with no steps per revolution or with microstep mode `0` no
angle converts to a step: the step loop is never entered there. -/
theorem ConvertDegreesToSteps_degenerate (t : Target) (s : Stepper) (degrees : ℚ)
    (h : s.stepper_StepsPerRev = 0 ∨ s.stepper_MicroStepMode = 0) :
    s.ConvertDegreesToSteps t degrees = 0 := by
  have hz : s.microstepsFloat degrees = 0 := by
    unfold Stepper.microstepsFloat
    rcases h with h | h
    · simp [h, roundFloat_zero]
    · simp [h, roundFloat_zero]
  unfold Stepper.ConvertDegreesToSteps
  rw [hz]
  exact toUnsigned_eq t 0 0 (by norm_num) (by norm_num) (by norm_num [UINT_RANGE])

/-- The degrees per full step of a configuration, from the two roundings of the
quotient. -/
theorem GetDegreesPerFullStep_of (s : Stepper) (spr : ℕ) (c dp : ℚ)
    (hspr : s.stepper_StepsPerRev = spr) (h1 : roundDouble (360 / (spr : ℚ)) = c)
    (h2 : roundFloat c = dp) : s.GetDegreesPerFullStep = dp := by
  unfold Stepper.GetDegreesPerFullStep
  rw [hspr, h1, h2]

/-- The degrees per microstep of a configuration, from the rounding of the
quotient. -/
theorem GetDegreesPerMicroStep_of (s : Stepper) (mode : ℕ) (dp dm : ℚ)
    (hmode : s.stepper_MicroStepMode = mode) (hdp : s.GetDegreesPerFullStep = dp)
    (h1 : roundFloat (dp / (mode : ℚ)) = dm) : s.GetDegreesPerMicroStep = dm := by
  unfold Stepper.GetDegreesPerMicroStep
  rw [hdp, hmode, h1]

/-- The `float` microstep count of an angle, from the roundings of the quotient and
of the product. -/
theorem microstepsFloat_of (s : Stepper) (d dp n1 pr : ℚ) (mode : ℕ)
    (hspr : s.stepper_StepsPerRev ≠ 0) (hmode : s.stepper_MicroStepMode = mode)
    (hdp : s.GetDegreesPerFullStep = dp) (h1 : roundFloat (d / dp) = n1)
    (h2 : roundFloat (n1 * (mode : ℚ)) = pr) : s.microstepsFloat d = pr := by
  unfold Stepper.microstepsFloat
  simp only [if_neg hspr]
  rw [hdp, h1, hmode, h2]

/-- The step count of an angle whose `float` microstep count lies in `[k, k + 1)`. -/
theorem ConvertDegreesToSteps_of (t : Target) (s : Stepper) (d pr : ℚ) (k : ℕ)
    (h : s.microstepsFloat d = pr) (hk1 : (k : ℚ) ≤ pr) (hk2 : pr < (k : ℚ) + 1)
    (hk3 : k < UINT_RANGE) : s.ConvertDegreesToSteps t d = k := by
  unfold Stepper.ConvertDegreesToSteps
  rw [h]
  exact toUnsigned_eq t pr k hk1 hk2 hk3


/-! ## The configurations of the examples -/

/-- The degrees per full step at 200 steps per revolution: the `float` nearest to
the `double` nearest to `360 / 200`. -/
theorem GetDegreesPerFullStep_200 (s : Stepper) (h : s.stepper_StepsPerRev = 200) :
    s.GetDegreesPerFullStep = (7549747 / 4194304) :=
  GetDegreesPerFullStep_of s 200 (8106479329266893 / 4503599627370496) (7549747 / 4194304) h
    (roundDouble_eval (360 / ((200 : ℕ) : ℚ)) (9 / 5) (1 / 4503599627370496) (8106479329266893 / 4503599627370496) 0 8106479329266893
      (by rw [abs_of_pos (by norm_num)]; norm_num) (by norm_num) (by norm_num) (by norm_num) (by norm_num)
      (by norm_num) (by norm_num) (by norm_num))
    (roundFloat_eval (8106479329266893 / 4503599627370496) (8106479329266893 / 4503599627370496) (1 / 8388608) (7549747 / 4194304) 0 15099494
      (abs_of_pos (by norm_num)) (by norm_num) (by norm_num) (by norm_num) (by norm_num)
      (by norm_num) (by norm_num) (by norm_num))

/-- At 200 steps per revolution in full-step mode 1 degree is no step: the `float` quotient is 0.56. -/
theorem steps_200_1_at_1_float (s : Stepper) (h1 : s.stepper_StepsPerRev = 200)
    (h2 : s.stepper_MicroStepMode = 1) : s.microstepsFloat 1 = (2330169 / 4194304) :=
  microstepsFloat_of s 1 (7549747 / 4194304) (2330169 / 4194304) (2330169 / 4194304) 1 (by rw [h1]; norm_num) h2
    (GetDegreesPerFullStep_200 s h1)
    (roundFloat_eval (1 / (7549747 / 4194304)) (4194304 / 7549747) (1 / 16777216) (2330169 / 4194304) (-1) 9320676
      (by rw [abs_of_pos (by norm_num)]; norm_num) (by norm_num) (by norm_num) (by norm_num) (by norm_num)
      (by norm_num) (by norm_num) (by norm_num))
    (roundFloat_eval ((2330169 / 4194304) * ((1 : ℕ) : ℚ)) (2330169 / 4194304) (1 / 16777216) (2330169 / 4194304) (-1) 9320676
      (by rw [abs_of_pos (by norm_num)]; norm_num) (by norm_num) (by norm_num) (by norm_num) (by norm_num)
      (by norm_num) (by norm_num) (by norm_num))

theorem steps_200_1_at_1 (t : Target) (s : Stepper) (h1 : s.stepper_StepsPerRev = 200)
    (h2 : s.stepper_MicroStepMode = 1) : s.ConvertDegreesToSteps t 1 = 0 :=
  ConvertDegreesToSteps_of t s 1 (2330169 / 4194304) 0 (steps_200_1_at_1_float s h1 h2) (by norm_num)
    (by norm_num) (by norm_num [UINT_RANGE])

/-- At 200 steps per revolution in full-step mode 45 degrees are 25 steps. -/
theorem steps_200_1_at_45_float (s : Stepper) (h1 : s.stepper_StepsPerRev = 200)
    (h2 : s.stepper_MicroStepMode = 1) : s.microstepsFloat 45 = 25 :=
  microstepsFloat_of s 45 (7549747 / 4194304) 25 25 1 (by rw [h1]; norm_num) h2
    (GetDegreesPerFullStep_200 s h1)
    (roundFloat_eval (45 / (7549747 / 4194304)) (188743680 / 7549747) (1 / 524288) 25 4 13107200
      (by rw [abs_of_pos (by norm_num)]; norm_num) (by norm_num) (by norm_num) (by norm_num) (by norm_num)
      (by norm_num) (by norm_num) (by norm_num))
    (roundFloat_eval (25 * ((1 : ℕ) : ℚ)) 25 (1 / 524288) 25 4 13107200
      (by rw [abs_of_pos (by norm_num)]; norm_num) (by norm_num) (by norm_num) (by norm_num) (by norm_num)
      (by norm_num) (by norm_num) (by norm_num))

theorem steps_200_1_at_45 (t : Target) (s : Stepper) (h1 : s.stepper_StepsPerRev = 200)
    (h2 : s.stepper_MicroStepMode = 1) : s.ConvertDegreesToSteps t 45 = 25 :=
  ConvertDegreesToSteps_of t s 45 25 25 (steps_200_1_at_45_float s h1 h2) (by norm_num)
    (by norm_num) (by norm_num [UINT_RANGE])

/-- At 200 steps per revolution in full-step mode 30 degrees are 16 steps: the `float` quotient is 16.67. -/
theorem steps_200_1_at_30_float (s : Stepper) (h1 : s.stepper_StepsPerRev = 200)
    (h2 : s.stepper_MicroStepMode = 1) : s.microstepsFloat 30 = (4369067 / 262144) :=
  microstepsFloat_of s 30 (7549747 / 4194304) (4369067 / 262144) (4369067 / 262144) 1 (by rw [h1]; norm_num) h2
    (GetDegreesPerFullStep_200 s h1)
    (roundFloat_eval (30 / (7549747 / 4194304)) (125829120 / 7549747) (1 / 524288) (4369067 / 262144) 4 8738134
      (by rw [abs_of_pos (by norm_num)]; norm_num) (by norm_num) (by norm_num) (by norm_num) (by norm_num)
      (by norm_num) (by norm_num) (by norm_num))
    (roundFloat_eval ((4369067 / 262144) * ((1 : ℕ) : ℚ)) (4369067 / 262144) (1 / 524288) (4369067 / 262144) 4 8738134
      (by rw [abs_of_pos (by norm_num)]; norm_num) (by norm_num) (by norm_num) (by norm_num) (by norm_num)
      (by norm_num) (by norm_num) (by norm_num))

theorem steps_200_1_at_30 (t : Target) (s : Stepper) (h1 : s.stepper_StepsPerRev = 200)
    (h2 : s.stepper_MicroStepMode = 1) : s.ConvertDegreesToSteps t 30 = 16 :=
  ConvertDegreesToSteps_of t s 30 (4369067 / 262144) 16 (steps_200_1_at_30_float s h1 h2) (by norm_num)
    (by norm_num) (by norm_num [UINT_RANGE])

/-- At 200 steps per revolution in full-step mode half a degree is no step: the `float` quotient is 0.28. -/
theorem steps_200_1_at_half_float (s : Stepper) (h1 : s.stepper_StepsPerRev = 200)
    (h2 : s.stepper_MicroStepMode = 1) : s.microstepsFloat (1 / 2) = (2330169 / 8388608) :=
  microstepsFloat_of s (1 / 2) (7549747 / 4194304) (2330169 / 8388608) (2330169 / 8388608) 1 (by rw [h1]; norm_num) h2
    (GetDegreesPerFullStep_200 s h1)
    (roundFloat_eval ((1 / 2) / (7549747 / 4194304)) (2097152 / 7549747) (1 / 33554432) (2330169 / 8388608) (-2) 9320676
      (by rw [abs_of_pos (by norm_num)]; norm_num) (by norm_num) (by norm_num) (by norm_num) (by norm_num)
      (by norm_num) (by norm_num) (by norm_num))
    (roundFloat_eval ((2330169 / 8388608) * ((1 : ℕ) : ℚ)) (2330169 / 8388608) (1 / 33554432) (2330169 / 8388608) (-2) 9320676
      (by rw [abs_of_pos (by norm_num)]; norm_num) (by norm_num) (by norm_num) (by norm_num) (by norm_num)
      (by norm_num) (by norm_num) (by norm_num))

theorem steps_200_1_at_half (t : Target) (s : Stepper) (h1 : s.stepper_StepsPerRev = 200)
    (h2 : s.stepper_MicroStepMode = 1) : s.ConvertDegreesToSteps t (1 / 2) = 0 :=
  ConvertDegreesToSteps_of t s (1 / 2) (2330169 / 8388608) 0 (steps_200_1_at_half_float s h1 h2) (by norm_num)
    (by norm_num) (by norm_num [UINT_RANGE])

/-- At 200 steps per revolution and 64 microsteps, 25 degrees are 888 microsteps: the `float` product is 888.89. -/
theorem steps_200_64_at_25_float (s : Stepper) (h1 : s.stepper_StepsPerRev = 200)
    (h2 : s.stepper_MicroStepMode = 64) : s.microstepsFloat 25 = (3640889 / 4096) :=
  microstepsFloat_of s 25 (7549747 / 4194304) (3640889 / 262144) (3640889 / 4096) 64 (by rw [h1]; norm_num) h2
    (GetDegreesPerFullStep_200 s h1)
    (roundFloat_eval (25 / (7549747 / 4194304)) (104857600 / 7549747) (1 / 1048576) (3640889 / 262144) 3 14563556
      (by rw [abs_of_pos (by norm_num)]; norm_num) (by norm_num) (by norm_num) (by norm_num) (by norm_num)
      (by norm_num) (by norm_num) (by norm_num))
    (roundFloat_eval ((3640889 / 262144) * ((64 : ℕ) : ℚ)) (3640889 / 4096) (1 / 16384) (3640889 / 4096) 9 14563556
      (by rw [abs_of_pos (by norm_num)]; norm_num) (by norm_num) (by norm_num) (by norm_num) (by norm_num)
      (by norm_num) (by norm_num) (by norm_num))

theorem steps_200_64_at_25 (t : Target) (s : Stepper) (h1 : s.stepper_StepsPerRev = 200)
    (h2 : s.stepper_MicroStepMode = 64) : s.ConvertDegreesToSteps t 25 = 888 :=
  ConvertDegreesToSteps_of t s 25 (3640889 / 4096) 888 (steps_200_64_at_25_float s h1 h2) (by norm_num)
    (by norm_num) (by norm_num [UINT_RANGE])

/-- At 200 steps per revolution and 64 microsteps, 45 degrees are 1600 microsteps. -/
theorem steps_200_64_at_45_float (s : Stepper) (h1 : s.stepper_StepsPerRev = 200)
    (h2 : s.stepper_MicroStepMode = 64) : s.microstepsFloat 45 = 1600 :=
  microstepsFloat_of s 45 (7549747 / 4194304) 25 1600 64 (by rw [h1]; norm_num) h2
    (GetDegreesPerFullStep_200 s h1)
    (roundFloat_eval (45 / (7549747 / 4194304)) (188743680 / 7549747) (1 / 524288) 25 4 13107200
      (by rw [abs_of_pos (by norm_num)]; norm_num) (by norm_num) (by norm_num) (by norm_num) (by norm_num)
      (by norm_num) (by norm_num) (by norm_num))
    (roundFloat_eval (25 * ((64 : ℕ) : ℚ)) 1600 (1 / 8192) 1600 10 13107200
      (by rw [abs_of_pos (by norm_num)]; norm_num) (by norm_num) (by norm_num) (by norm_num) (by norm_num)
      (by norm_num) (by norm_num) (by norm_num))

theorem steps_200_64_at_45 (t : Target) (s : Stepper) (h1 : s.stepper_StepsPerRev = 200)
    (h2 : s.stepper_MicroStepMode = 64) : s.ConvertDegreesToSteps t 45 = 1600 :=
  ConvertDegreesToSteps_of t s 45 1600 1600 (steps_200_64_at_45_float s h1 h2) (by norm_num)
    (by norm_num) (by norm_num [UINT_RANGE])

/-- At 200 steps per revolution and 64 microsteps, the `float` microstep count of -45 degrees is -1600. -/
theorem steps_200_64_at_neg45_float (s : Stepper) (h1 : s.stepper_StepsPerRev = 200)
    (h2 : s.stepper_MicroStepMode = 64) : s.microstepsFloat (-45) = (-1600) :=
  microstepsFloat_of s (-45) (7549747 / 4194304) (-25) (-1600) 64 (by rw [h1]; norm_num) h2
    (GetDegreesPerFullStep_200 s h1)
    (roundFloat_eval ((-45) / (7549747 / 4194304)) (188743680 / 7549747) (1 / 524288) (-25) 4 (-13107200)
      (by rw [abs_of_neg (by norm_num)]; norm_num) (by norm_num) (by norm_num) (by norm_num) (by norm_num)
      (by norm_num) (by norm_num) (by norm_num))
    (roundFloat_eval ((-25) * ((64 : ℕ) : ℚ)) 1600 (1 / 8192) (-1600) 10 (-13107200)
      (by rw [abs_of_neg (by norm_num)]; norm_num) (by norm_num) (by norm_num) (by norm_num) (by norm_num)
      (by norm_num) (by norm_num) (by norm_num))


/-! ## `SetRotationalVelocity` -/

/-- Past the two input checks the guard on `tempStepDelay` never fires: the call
stores the converted delay and answers `SUCCESS`. -/
theorem SetRotationalVelocity_accepts (t : Target) (s : Stepper) (v : ℚ) (h0 : v ≠ 0)
    (h1 : v ≤ MAX_ROT_VEL) :
    s.SetRotationalVelocity t v =
      (SUCCESS,
        { s with
          stepper_StepDelay :=
            roundFloat (s.ConvertRotationalVelocityToStepDelay t v : ℚ) }) := by
  unfold Stepper.SetRotationalVelocity
  rw [if_neg h0, if_neg (not_lt.mpr h1)]
  have : ¬ ((s.ConvertRotationalVelocityToStepDelay t v : ℚ) < 0) :=
    not_lt.mpr (Nat.cast_nonneg _)
  simp only [this, if_false]

/-- C1: for every axis state, `SetRotationalVelocity(0)` returns
`WARNING_VEL_SET_ZERO` and leaves the whole object (velocity, step delay and every
other member) exactly as it was. -/
theorem SetRotationalVelocity_zero (t : Target) (s : Stepper) :
    s.SetRotationalVelocity t 0 = (WARNING_VEL_SET_ZERO, s) := by
  simp [Stepper.SetRotationalVelocity]

/-- C2: for every axis state and every `v > MAX_ROT_VEL`, `SetRotationalVelocity(v)`
returns `ERROR_ABOVE_VEL_MAX` and leaves the object, hence the velocity and the step
delay, unchanged. -/
theorem SetRotationalVelocity_above_max (t : Target) (s : Stepper) (v : ℚ)
    (hv : v > MAX_ROT_VEL) :
    s.SetRotationalVelocity t v = (ERROR_ABOVE_VEL_MAX, s) := by
  have h0 : v ≠ 0 := by
    have : (0 : ℚ) < MAX_ROT_VEL := by norm_num [MAX_ROT_VEL]
    exact ne_of_gt (lt_trans this hv)
  unfold Stepper.SetRotationalVelocity
  rw [if_neg h0, if_pos hv]

/-- Witness of C2: 101 degrees per second on the base axis of `main.cpp`. -/
theorem SetRotationalVelocity_above_max_witness :
    (101 : ℚ) > MAX_ROT_VEL ∧
      (Stepper2 zeroTarget).SetRotationalVelocity zeroTarget 101 =
        (ERROR_ABOVE_VEL_MAX, Stepper2 zeroTarget) :=
  ⟨by norm_num [MAX_ROT_VEL],
    SetRotationalVelocity_above_max zeroTarget (Stepper2 zeroTarget) 101
      (by norm_num [MAX_ROT_VEL])⟩


/-- The full-step axis computes no microstep per second for 1 degree per second:
the `float` quotient `1 / 1.8` is 0.56. -/
theorem fullStep200_steps_one (t : Target) :
    (fullStep200 t).ConvertDegreesToSteps t 1 = 0 :=
  steps_200_1_at_1 t _ rfl rfl

/-- On the full-step axis `SetRotationalVelocity(1)` stores the target's
conversion of the infinite quotient `1000000.0 / 0`. -/
theorem fullStep200_set_one (t : Target) :
    (fullStep200 t).SetRotationalVelocity t 1 =
      (SUCCESS,
        { fullStep200 t with
          stepper_StepDelay := roundFloat ((t.infinite % UINT_RANGE : ℕ) : ℚ) }) := by
  rw [SetRotationalVelocity_accepts t _ 1 (by norm_num) (by norm_num [MAX_ROT_VEL])]
  unfold Stepper.ConvertRotationalVelocityToStepDelay
  simp only [fullStep200_steps_one, if_true]

/-- The base axis of `main.cpp` turns 25 degrees per second into 888 microsteps
per second (the `float` product is 888.89). -/
theorem Stepper2_steps_25 (t : Target) : (Stepper2 t).ConvertDegreesToSteps t 25 = 888 :=
  steps_200_64_at_25 t _ rfl rfl

/-- At 200 steps per revolution and 64 microsteps, 45 degrees per second are 1600
microsteps per second and a step delay of 625 microseconds. -/
theorem delay_45_at_200_64 (t : Target) (s : Stepper) (h1 : s.stepper_StepsPerRev = 200)
    (h2 : s.stepper_MicroStepMode = 64) :
    s.ConvertRotationalVelocityToStepDelay t 45 = 625 := by
  rw [ConvertRotationalVelocityToStepDelay_eq t s 45 1600 (by norm_num)
    (steps_200_64_at_45 t s h1 h2)]

/-- At 200 steps per revolution in full-step mode, 45 degrees per second are 25
steps per second and a step delay of 40000 microseconds. -/
theorem delay_45_at_200_1 (t : Target) (s : Stepper) (h1 : s.stepper_StepsPerRev = 200)
    (h2 : s.stepper_MicroStepMode = 1) :
    s.ConvertRotationalVelocityToStepDelay t 45 = 40000 := by
  rw [ConvertRotationalVelocityToStepDelay_eq t s 45 25 (by norm_num)
    (steps_200_1_at_45 t s h1 h2)]

/-- The base axis of `main.cpp` is constructed with a step delay of 625
microseconds: 45 degrees per second are 1600 microsteps per second. -/
theorem Stepper2_StepDelay (t : Target) : (Stepper2 t).stepper_StepDelay = 625 := by
  simp only [Stepper2, Stepper.Stepper]
  rw [delay_45_at_200_64 t _ rfl rfl, roundFloat_natCast 625 (by norm_num)]
  norm_num

/-- The full-step axis is constructed with a step delay of 40000 microseconds. -/
theorem fullStep200_StepDelay (t : Target) : (fullStep200 t).stepper_StepDelay = 40000 := by
  simp only [fullStep200, Stepper.Stepper]
  rw [delay_45_at_200_1 t _ rfl rfl, roundFloat_natCast 40000 (by norm_num)]
  norm_num

/-- The three ways `SetRotationalVelocity` returns. -/
theorem SetRotationalVelocity_cases (t : Target) (s : Stepper) (v : ℚ) :
    s.SetRotationalVelocity t v = (WARNING_VEL_SET_ZERO, s) ∨
      s.SetRotationalVelocity t v = (ERROR_ABOVE_VEL_MAX, s) ∨
      s.SetRotationalVelocity t v =
        (SUCCESS,
          { s with
            stepper_StepDelay :=
              roundFloat (s.ConvertRotationalVelocityToStepDelay t v : ℚ) }) := by
  by_cases h0 : v = 0
  · left
    unfold Stepper.SetRotationalVelocity
    rw [if_pos h0]
  · by_cases h1 : v > MAX_ROT_VEL
    · right
      left
      unfold Stepper.SetRotationalVelocity
      rw [if_neg h0, if_pos h1]
    · right
      right
      exact SetRotationalVelocity_accepts t s v h0 (not_lt.mp h1)

/-- Frame of `SetRotationalVelocity`: it writes no member but `stepper_StepDelay`. -/
theorem SetRotationalVelocity_frame (t : Target) (s : Stepper) (v : ℚ) :
    (s.SetRotationalVelocity t v).2 =
      { s with stepper_StepDelay := (s.SetRotationalVelocity t v).2.stepper_StepDelay } := by
  rcases SetRotationalVelocity_cases t s v with h | h | h <;> rw [h]

/-- Counterexample to C3 as stated: 200 steps per revolution, microstep mode 1 and
`v = 1` lie within `0 < v ≤ MAX_ROT_VEL`, yet the microsteps per second are `0`, so
`round_down(1,000,000 / microsteps_per_sec)` is no number at all; what the call
stores is the target's conversion of an infinite quotient (`0` on one target,
`4294967295` stored as the `float` `4294967296` on another). -/
theorem SetRotationalVelocity_in_range_counterexample :
    ((0 : ℚ) < 1 ∧ (1 : ℚ) ≤ MAX_ROT_VEL) ∧
      (fullStep200 zeroTarget).ConvertDegreesToSteps zeroTarget 1 = 0 ∧
      VelocityToStepDelay_spec ((fullStep200 zeroTarget).ConvertDegreesToSteps zeroTarget 1) ≠
        some ((fullStep200 zeroTarget).SetRotationalVelocity zeroTarget 1).2.stepper_StepDelay ∧
      ((fullStep200 zeroTarget).SetRotationalVelocity zeroTarget 1).2.stepper_StepDelay = 0 ∧
      ((fullStep200 saturatingTarget).SetRotationalVelocity saturatingTarget
        1).2.stepper_StepDelay = 4294967296 := by
  refine ⟨⟨by norm_num, by norm_num [MAX_ROT_VEL]⟩, fullStep200_steps_one _, ?_, ?_, ?_⟩
  · rw [fullStep200_steps_one]
    simp [VelocityToStepDelay_spec]
  · rw [fullStep200_set_one]
    simp [zeroTarget, roundFloat_zero]
  · rw [fullStep200_set_one]
    have h : ((saturatingTarget.infinite % UINT_RANGE : ℕ) : ℚ) = 4294967295 := by
      norm_num [saturatingTarget, UINT_RANGE]
    simp only [h]
    exact roundFloat_eval 4294967295 4294967295 256 4294967296 31 16777216
      (abs_of_pos (by norm_num)) (by norm_num) (by norm_num) (by norm_num) (by norm_num)
      (by norm_num) (by norm_num) (by norm_num)

/-- C3 (amended): for every axis configuration and every `v` with
`0 < v ≤ MAX_ROT_VEL` whose microsteps per second `DegreesToMicrosteps(v)` are at
least 1, `SetRotationalVelocity(v)` returns `SUCCESS`, changes nothing but the step
delay, and sets the step delay to `round_down(1,000,000 / DegreesToMicrosteps(v))`. -/
theorem SetRotationalVelocity_in_range (t : Target) (s : Stepper) (v : ℚ) (h0 : 0 < v)
    (h1 : v ≤ MAX_ROT_VEL) (hsteps : 1 ≤ s.ConvertDegreesToSteps t v) :
    s.SetRotationalVelocity t v =
        (SUCCESS,
          { s with
            stepper_StepDelay := ((1000000 / s.ConvertDegreesToSteps t v : ℕ) : ℚ) }) ∧
      VelocityToStepDelay_spec (s.ConvertDegreesToSteps t v) =
        some (s.SetRotationalVelocity t v).2.stepper_StepDelay := by
  have hset := SetRotationalVelocity_accepts t s v (ne_of_gt h0) h1
  have hd := ConvertRotationalVelocityToStepDelay_eq t s v _ hsteps rfl
  rw [hd, roundFloat_delay] at hset
  refine ⟨hset, ?_⟩
  rw [hset]
  unfold VelocityToStepDelay_spec
  rw [if_neg (by omega)]
  have hf := Rat.floor_natCast_div_natCast 1000000 (s.ConvertDegreesToSteps t v)
  simp only [Nat.cast_ofNat] at hf
  simp only [hf, Option.some.injEq]
  norm_cast

/-- Witness of C3 (amended): 25 degrees per second on the base axis of `main.cpp`
(200 steps per revolution, 64 microsteps) are 888 microsteps per second and a step
delay of `1000000 / 888 = 1126` microseconds. -/
theorem SetRotationalVelocity_in_range_witness :
    ((Stepper2 zeroTarget).SetRotationalVelocity zeroTarget 25).1 = SUCCESS ∧
      ((Stepper2 zeroTarget).SetRotationalVelocity zeroTarget 25).2.stepper_StepDelay = 1126 := by
  have hsteps := Stepper2_steps_25 zeroTarget
  have h := (SetRotationalVelocity_in_range zeroTarget (Stepper2 zeroTarget) 25 (by norm_num)
    (by norm_num [MAX_ROT_VEL]) (by rw [hsteps]; norm_num)).1
  rw [h, hsteps]
  exact ⟨rfl, by norm_num⟩

/-- C4 (the code at the failing input): on the base axis of `main.cpp`, constructed
with velocity 45 and the matching delay 625, `SetRotationalVelocity(25)` returns
`SUCCESS` and stores the delay 1126, but the stored rotational velocity is still 45,
whose step delay is 625: the velocity is not committed and the stored delay is no
longer the one derived from the stored velocity. -/
theorem SetRotationalVelocity_velocity_not_stored (t : Target) :
    (Stepper2 t).stepper_RotationalVelocity = 45 ∧
      (Stepper2 t).stepper_StepDelay = 625 ∧
      ((Stepper2 t).SetRotationalVelocity t 25).1 = SUCCESS ∧
      ((Stepper2 t).SetRotationalVelocity t 25).2.stepper_RotationalVelocity = 45 ∧
      ((Stepper2 t).SetRotationalVelocity t 25).2.stepper_StepDelay = 1126 ∧
      (((Stepper2 t).SetRotationalVelocity t 25).2.ConvertRotationalVelocityToStepDelay t
        ((Stepper2 t).SetRotationalVelocity t 25).2.stepper_RotationalVelocity : ℚ) = 625 := by
  have hset := SetRotationalVelocity_accepts t (Stepper2 t) 25 (by norm_num)
    (by norm_num [MAX_ROT_VEL])
  rw [ConvertRotationalVelocityToStepDelay_eq t _ 25 888 (by norm_num)
    (Stepper2_steps_25 t), roundFloat_delay] at hset
  refine ⟨rfl, Stepper2_StepDelay t, ?_, ?_, ?_, ?_⟩
  · rw [hset]
  · rw [hset]
    rfl
  · rw [hset]
    norm_num
  · have hfr := SetRotationalVelocity_frame t (Stepper2 t) 25
    have hv : ((Stepper2 t).SetRotationalVelocity t 25).2.stepper_RotationalVelocity = 45 := by
      rw [hfr]
      rfl
    rw [hv, delay_45_at_200_64 t _ (by rw [hfr]; rfl) (by rw [hfr]; rfl)]
    norm_num

/-- C5 (the code at the failing input): a negative velocity passes both input
checks, and the guard on the unsigned `tempStepDelay` cannot fire, so for every
axis state `SetRotationalVelocity(-45)` returns `SUCCESS` and overwrites the step
delay with the converted delay (stored as a `float`); on the base axis of
`main.cpp` the delay goes from 625 to 0 on a target that converts out-of-range
values to 0. -/
theorem SetRotationalVelocity_negative_accepted (t : Target) (s : Stepper) :
    (s.SetRotationalVelocity t (-45)).1 = SUCCESS ∧
      (s.SetRotationalVelocity t (-45)).2.stepper_StepDelay =
        roundFloat (s.ConvertRotationalVelocityToStepDelay t (-45) : ℚ) ∧
      (Stepper2 zeroTarget).stepper_StepDelay = 625 ∧
      ((Stepper2 zeroTarget).SetRotationalVelocity zeroTarget (-45)).2.stepper_StepDelay = 0 := by
  have hacc : ∀ s : Stepper, s.SetRotationalVelocity t (-45) = _ := fun s =>
    SetRotationalVelocity_accepts t s (-45) (by norm_num) (by norm_num [MAX_ROT_VEL])
  refine ⟨by rw [hacc], by rw [hacc], Stepper2_StepDelay _, ?_⟩
  rw [SetRotationalVelocity_accepts zeroTarget _ (-45) (by norm_num)
    (by norm_num [MAX_ROT_VEL])]
  have hsteps : (Stepper2 zeroTarget).ConvertDegreesToSteps zeroTarget (-45) = 0 := by
    unfold Stepper.ConvertDegreesToSteps
    rw [steps_200_64_at_neg45_float _ rfl rfl]
    unfold toUnsigned
    norm_num [zeroTarget]
  unfold Stepper.ConvertRotationalVelocityToStepDelay
  simp only [hsteps, if_true]
  simp [zeroTarget, roundFloat_zero]

/-- C6 (the code at the failing input): on the full-step axis 1 degree per second
is 0 microsteps per second, so the delay computation divides by zero; the call
still returns `SUCCESS`, not `ERROR_UNKNOWN`, and replaces the constructed delay of
40000 microseconds by the target's conversion of the infinite quotient (stored as
a `float`). -/
theorem SetRotationalVelocity_degenerate_accepted (t : Target) :
    (fullStep200 t).ConvertDegreesToSteps t 1 = 0 ∧
      ((fullStep200 t).SetRotationalVelocity t 1).1 = SUCCESS ∧
      (fullStep200 t).stepper_StepDelay = 40000 ∧
      ((fullStep200 t).SetRotationalVelocity t 1).2.stepper_StepDelay =
        roundFloat ((t.infinite % UINT_RANGE : ℕ) : ℚ) := by
  refine ⟨fullStep200_steps_one t, by rw [fullStep200_set_one], ?_,
    by rw [fullStep200_set_one]⟩
  exact fullStep200_StepDelay t


/-! ## `RotateDegrees` -/

theorem count_step_pulseTrain (us n : Nat) : List.count Event.step (pulseTrain us n) = n := by
  induction n with
  | zero => rfl
  | succ n ih => simp [pulseTrain, ih]

/-- After `n` iterations the step loop has applied the update of one pulse `n`
times to the joint angle, with the increment `2.0*sign*GetDegreesPerMicroStep()`,
and changed nothing else. -/
theorem stepLoop_state (t : Target) (sign : ℤ) (n : Nat) (s : Stepper) :
    (Stepper.stepLoop t sign n s).1 =
      { s with
        stepper_JointAngle :=
          (angleAfterPulse (roundDouble (2 * (sign : ℚ) * s.GetDegreesPerMicroStep)))^[n]
            s.stepper_JointAngle } := by
  induction n generalizing s with
  | zero =>
    cases s
    simp [Stepper.stepLoop]
  | succ n ih =>
    cases s
    simp only [Stepper.stepLoop, ih, Function.iterate_succ_apply, angleAfterPulse,
      Stepper.GetDegreesPerMicroStep, Stepper.GetDegreesPerFullStep]

/-- The calls of `n` iterations of the step loop: `n` pulses, each followed by a
hold of the current step delay. -/
theorem stepLoop_events (t : Target) (sign : ℤ) (n : Nat) (s : Stepper) :
    (Stepper.stepLoop t sign n s).2 = pulseTrain (toUnsigned t s.stepper_StepDelay) n := by
  induction n generalizing s with
  | zero => rfl
  | succ n ih => simp only [Stepper.stepLoop, ih, pulseTrain]

/-- What `RotateDegrees` does for a positive angle. -/
theorem RotateDegrees_pos (t : Target) (s : Stepper) (d : ℚ) (hd : 0 < d) :
    s.RotateDegrees t d =
      (COMPLETED,
        { s with
          stepper_JointAngle :=
            (angleAfterPulse (roundDouble (2 * s.GetDegreesPerMicroStep)))^[
              s.ConvertDegreesToSteps t d] s.stepper_JointAngle },
        Event.setDirection 0 ::
          pulseTrain (toUnsigned t s.stepper_StepDelay) (s.ConvertDegreesToSteps t d)) := by
  unfold Stepper.RotateDegrees
  rw [if_pos hd]
  simp only [stepLoop_state, stepLoop_events]
  norm_num

/-- What `RotateDegrees` does for a negative angle. -/
theorem RotateDegrees_neg (t : Target) (s : Stepper) (d : ℚ) (hd : d < 0) :
    s.RotateDegrees t d =
      (COMPLETED,
        { s with
          stepper_JointAngle :=
            (angleAfterPulse (roundDouble (2 * (-1) * s.GetDegreesPerMicroStep)))^[
              s.ConvertDegreesToSteps t (-d)] s.stepper_JointAngle },
        Event.setDirection 1 ::
          pulseTrain (toUnsigned t s.stepper_StepDelay) (s.ConvertDegreesToSteps t (-d))) := by
  unfold Stepper.RotateDegrees
  rw [if_neg (not_lt.mpr (le_of_lt hd)), if_pos hd]
  simp only [stepLoop_state, stepLoop_events, neg_one_mul]
  norm_num

/-- C7: for every axis state, `RotateDegrees(0)` returns `COMPLETED`, leaves the
object (the joint angle included) unchanged and makes no call at all on the driver:
no step pulse and no direction command. -/
theorem RotateDegrees_zero (t : Target) (s : Stepper) :
    s.RotateDegrees t 0 = (COMPLETED, s, []) := by
  simp [Stepper.RotateDegrees]

/-- C8: for every nonzero `d`, `RotateDegrees(d)` returns `COMPLETED`, and the calls it
makes are first `setDirection(0)` when `d > 0`, `setDirection(1)` when `d < 0`, and
then exactly `DegreesToMicrosteps(|d|)` step pulses, each followed by the step
delay, `DegreesToMicrosteps` being the `float` computation of the source. -/
theorem RotateDegrees_nonzero (t : Target) (s : Stepper) (d : ℚ) (hd : d ≠ 0) :
    (s.RotateDegrees t d).1 = COMPLETED ∧
      (s.RotateDegrees t d).2.2 =
        Event.setDirection (if 0 < d then 0 else 1) ::
          pulseTrain (toUnsigned t s.stepper_StepDelay) (s.ConvertDegreesToSteps t |d|) ∧
      List.count Event.step (s.RotateDegrees t d).2.2 = s.ConvertDegreesToSteps t |d| := by
  rcases lt_or_gt_of_ne hd with h | h
  · rw [RotateDegrees_neg t s d h, abs_of_neg h, if_neg (not_lt.mpr (le_of_lt h))]
    refine ⟨rfl, rfl, ?_⟩
    simp [count_step_pulseTrain]
  · rw [RotateDegrees_pos t s d h, abs_of_pos h, if_pos h]
    refine ⟨rfl, rfl, ?_⟩
    simp [count_step_pulseTrain]

/-- Witness of C8: at 200 steps per revolution and microstep mode 1,
`RotateDegrees(30.0)` sets the direction bit to 0 and issues exactly 16 pulses. -/
theorem RotateDegrees_nonzero_witness :
    ((30 : ℚ) ≠ 0) ∧
      ((fullStep200 zeroTarget).RotateDegrees zeroTarget 30).1 = COMPLETED ∧
      ((fullStep200 zeroTarget).RotateDegrees zeroTarget 30).2.2 =
        Event.setDirection 0 :: pulseTrain 40000 16 ∧
      List.count Event.step ((fullStep200 zeroTarget).RotateDegrees zeroTarget 30).2.2 = 16 := by
  have h := RotateDegrees_nonzero zeroTarget (fullStep200 zeroTarget) 30 (by norm_num)
  have h30 : |(30 : ℚ)| = 30 := abs_of_pos (by norm_num)
  have hdelay : toUnsigned zeroTarget (fullStep200 zeroTarget).stepper_StepDelay = 40000 := by
    rw [fullStep200_StepDelay]
    apply toUnsigned_eq <;> norm_num [UINT_RANGE]
  rw [h30, steps_200_1_at_30 zeroTarget _ rfl rfl, hdelay] at h
  refine ⟨by norm_num, h.1, ?_, h.2.2⟩
  rw [h.2.1]
  norm_num


/-- The update of one pulse, from the two roundings of the sum. -/
theorem angleAfterPulse_of (inc a c r : ℚ) (h1 : roundDouble (a + inc) = c)
    (h2 : roundFloat c = r) : angleAfterPulse inc a = r := by
  unfold angleAfterPulse
  rw [h1, h2]

/-- One more application in front of an iteration. -/
theorem iterate_step (f : ℚ → ℚ) (n : ℕ) (a b c : ℚ) (h1 : f a = b) (h2 : f^[n] b = c) :
    f^[n + 1] a = c := by
  rw [Function.iterate_succ_apply, h1, h2]


/-- The degrees per microstep at 200 steps per revolution and microstep mode 1. -/
theorem GetDegreesPerMicroStep_200_1 (s : Stepper) (h1 : s.stepper_StepsPerRev = 200)
    (h2 : s.stepper_MicroStepMode = 1) : s.GetDegreesPerMicroStep = (7549747 / 4194304) :=
  GetDegreesPerMicroStep_of s 1 (7549747 / 4194304) (7549747 / 4194304) h2 (GetDegreesPerFullStep_200 s h1)
    (roundFloat_eval ((7549747 / 4194304) / ((1 : ℕ) : ℚ)) (7549747 / 4194304) (1 / 8388608) (7549747 / 4194304) 0 15099494
      (by rw [abs_of_pos (by norm_num)]; norm_num) (by norm_num) (by norm_num) (by norm_num) (by norm_num)
      (by norm_num) (by norm_num) (by norm_num))

/-- Sixteen pulses of the full-step axis from the joint angle 0: each adds the `double` 3.6 and rounds the sum to `float`. -/
theorem angle_after_16_pulses_200_1 : (angleAfterPulse (7549747 / 2097152))^[16] 0 = (3774873 / 65536) :=
  (iterate_step _ 15 0 (7549747 / 2097152) (3774873 / 65536)
    (angleAfterPulse_of (7549747 / 2097152) 0 (7549747 / 2097152) (7549747 / 2097152)
    (roundDouble_eval (0 + (7549747 / 2097152)) (7549747 / 2097152) (1 / 2251799813685248) (7549747 / 2097152) 1 8106479114518528
      (by rw [abs_of_pos (by norm_num)]; norm_num) (by norm_num) (by norm_num) (by norm_num) (by norm_num)
      (by norm_num) (by norm_num) (by norm_num))
    (roundFloat_eval (7549747 / 2097152) (7549747 / 2097152) (1 / 4194304) (7549747 / 2097152) 1 15099494
      (abs_of_pos (by norm_num)) (by norm_num) (by norm_num) (by norm_num) (by norm_num)
      (by norm_num) (by norm_num) (by norm_num)))
    (iterate_step _ 14 (7549747 / 2097152) (7549747 / 1048576) (3774873 / 65536)
    (angleAfterPulse_of (7549747 / 2097152) (7549747 / 2097152) (7549747 / 1048576) (7549747 / 1048576)
    (roundDouble_eval ((7549747 / 2097152) + (7549747 / 2097152)) (7549747 / 1048576) (1 / 1125899906842624) (7549747 / 1048576) 2 8106479114518528
      (by rw [abs_of_pos (by norm_num)]; norm_num) (by norm_num) (by norm_num) (by norm_num) (by norm_num)
      (by norm_num) (by norm_num) (by norm_num))
    (roundFloat_eval (7549747 / 1048576) (7549747 / 1048576) (1 / 2097152) (7549747 / 1048576) 2 15099494
      (abs_of_pos (by norm_num)) (by norm_num) (by norm_num) (by norm_num) (by norm_num)
      (by norm_num) (by norm_num) (by norm_num)))
    (iterate_step _ 13 (7549747 / 1048576) (2831155 / 262144) (3774873 / 65536)
    (angleAfterPulse_of (7549747 / 2097152) (7549747 / 1048576) (22649241 / 2097152) (2831155 / 262144)
    (roundDouble_eval ((7549747 / 1048576) + (7549747 / 2097152)) (22649241 / 2097152) (1 / 562949953421312) (22649241 / 2097152) 3 6079859335888896
      (by rw [abs_of_pos (by norm_num)]; norm_num) (by norm_num) (by norm_num) (by norm_num) (by norm_num)
      (by norm_num) (by norm_num) (by norm_num))
    (roundFloat_tie_eval (22649241 / 2097152) (22649241 / 2097152) (1 / 1048576) (2831155 / 262144) 3 11324620
      (abs_of_pos (by norm_num)) (by norm_num) (by norm_num) (by norm_num) (by norm_num)
      (by norm_num) (by norm_num)))
    (iterate_step _ 12 (2831155 / 262144) (7549747 / 524288) (3774873 / 65536)
    (angleAfterPulse_of (7549747 / 2097152) (2831155 / 262144) (30198987 / 2097152) (7549747 / 524288)
    (roundDouble_eval ((2831155 / 262144) + (7549747 / 2097152)) (30198987 / 2097152) (1 / 562949953421312) (30198987 / 2097152) 3 8106478846083072
      (by rw [abs_of_pos (by norm_num)]; norm_num) (by norm_num) (by norm_num) (by norm_num) (by norm_num)
      (by norm_num) (by norm_num) (by norm_num))
    (roundFloat_tie_eval (30198987 / 2097152) (30198987 / 2097152) (1 / 1048576) (7549747 / 524288) 3 15099493
      (abs_of_pos (by norm_num)) (by norm_num) (by norm_num) (by norm_num) (by norm_num)
      (by norm_num) (by norm_num)))
    (iterate_step _ 11 (7549747 / 524288) 18 (3774873 / 65536)
    (angleAfterPulse_of (7549747 / 2097152) (7549747 / 524288) (37748735 / 2097152) 18
    (roundDouble_eval ((7549747 / 524288) + (7549747 / 2097152)) (37748735 / 2097152) (1 / 281474976710656) (37748735 / 2097152) 4 5066549446574080
      (by rw [abs_of_pos (by norm_num)]; norm_num) (by norm_num) (by norm_num) (by norm_num) (by norm_num)
      (by norm_num) (by norm_num) (by norm_num))
    (roundFloat_eval (37748735 / 2097152) (37748735 / 2097152) (1 / 524288) 18 4 9437184
      (abs_of_pos (by norm_num)) (by norm_num) (by norm_num) (by norm_num) (by norm_num)
      (by norm_num) (by norm_num) (by norm_num)))
    (iterate_step _ 10 18 (11324621 / 524288) (3774873 / 65536)
    (angleAfterPulse_of (7549747 / 2097152) 18 (45298483 / 2097152) (11324621 / 524288)
    (roundDouble_eval (18 + (7549747 / 2097152)) (45298483 / 2097152) (1 / 281474976710656) (45298483 / 2097152) 4 6079859470106624
      (by rw [abs_of_pos (by norm_num)]; norm_num) (by norm_num) (by norm_num) (by norm_num) (by norm_num)
      (by norm_num) (by norm_num) (by norm_num))
    (roundFloat_eval (45298483 / 2097152) (45298483 / 2097152) (1 / 524288) (11324621 / 524288) 4 11324621
      (abs_of_pos (by norm_num)) (by norm_num) (by norm_num) (by norm_num) (by norm_num)
      (by norm_num) (by norm_num) (by norm_num)))
    (iterate_step _ 9 (11324621 / 524288) (6606029 / 262144) (3774873 / 65536)
    (angleAfterPulse_of (7549747 / 2097152) (11324621 / 524288) (52848231 / 2097152) (6606029 / 262144)
    (roundDouble_eval ((11324621 / 524288) + (7549747 / 2097152)) (52848231 / 2097152) (1 / 281474976710656) (52848231 / 2097152) 4 7093169493639168
      (by rw [abs_of_pos (by norm_num)]; norm_num) (by norm_num) (by norm_num) (by norm_num) (by norm_num)
      (by norm_num) (by norm_num) (by norm_num))
    (roundFloat_eval (52848231 / 2097152) (52848231 / 2097152) (1 / 524288) (6606029 / 262144) 4 13212058
      (abs_of_pos (by norm_num)) (by norm_num) (by norm_num) (by norm_num) (by norm_num)
      (by norm_num) (by norm_num) (by norm_num)))
    (iterate_step _ 8 (6606029 / 262144) (15099495 / 524288) (3774873 / 65536)
    (angleAfterPulse_of (7549747 / 2097152) (6606029 / 262144) (60397979 / 2097152) (15099495 / 524288)
    (roundDouble_eval ((6606029 / 262144) + (7549747 / 2097152)) (60397979 / 2097152) (1 / 281474976710656) (60397979 / 2097152) 4 8106479517171712
      (by rw [abs_of_pos (by norm_num)]; norm_num) (by norm_num) (by norm_num) (by norm_num) (by norm_num)
      (by norm_num) (by norm_num) (by norm_num))
    (roundFloat_eval (60397979 / 2097152) (60397979 / 2097152) (1 / 524288) (15099495 / 524288) 4 15099495
      (abs_of_pos (by norm_num)) (by norm_num) (by norm_num) (by norm_num) (by norm_num)
      (by norm_num) (by norm_num) (by norm_num)))
    (iterate_step _ 7 (15099495 / 524288) (4246733 / 131072) (3774873 / 65536)
    (angleAfterPulse_of (7549747 / 2097152) (15099495 / 524288) (67947727 / 2097152) (4246733 / 131072)
    (roundDouble_eval ((15099495 / 524288) + (7549747 / 2097152)) (67947727 / 2097152) (1 / 140737488355328) (67947727 / 2097152) 5 4559894770352128
      (by rw [abs_of_pos (by norm_num)]; norm_num) (by norm_num) (by norm_num) (by norm_num) (by norm_num)
      (by norm_num) (by norm_num) (by norm_num))
    (roundFloat_eval (67947727 / 2097152) (67947727 / 2097152) (1 / 262144) (4246733 / 131072) 5 8493466
      (abs_of_pos (by norm_num)) (by norm_num) (by norm_num) (by norm_num) (by norm_num)
      (by norm_num) (by norm_num) (by norm_num)))
    (iterate_step _ 6 (4246733 / 131072) 36 (3774873 / 65536)
    (angleAfterPulse_of (7549747 / 2097152) (4246733 / 131072) (75497475 / 2097152) 36
    (roundDouble_eval ((4246733 / 131072) + (7549747 / 2097152)) (75497475 / 2097152) (1 / 140737488355328) (75497475 / 2097152) 5 5066549782118400
      (by rw [abs_of_pos (by norm_num)]; norm_num) (by norm_num) (by norm_num) (by norm_num) (by norm_num)
      (by norm_num) (by norm_num) (by norm_num))
    (roundFloat_eval (75497475 / 2097152) (75497475 / 2097152) (1 / 262144) 36 5 9437184
      (abs_of_pos (by norm_num)) (by norm_num) (by norm_num) (by norm_num) (by norm_num)
      (by norm_num) (by norm_num) (by norm_num)))
    (iterate_step _ 5 36 (5190451 / 131072) (3774873 / 65536)
    (angleAfterPulse_of (7549747 / 2097152) 36 (83047219 / 2097152) (5190451 / 131072)
    (roundDouble_eval (36 + (7549747 / 2097152)) (83047219 / 2097152) (1 / 140737488355328) (83047219 / 2097152) 5 5573204525449216
      (by rw [abs_of_pos (by norm_num)]; norm_num) (by norm_num) (by norm_num) (by norm_num) (by norm_num)
      (by norm_num) (by norm_num) (by norm_num))
    (roundFloat_eval (83047219 / 2097152) (83047219 / 2097152) (1 / 262144) (5190451 / 131072) 5 10380902
      (abs_of_pos (by norm_num)) (by norm_num) (by norm_num) (by norm_num) (by norm_num)
      (by norm_num) (by norm_num) (by norm_num)))
    (iterate_step _ 4 (5190451 / 131072) (2831155 / 65536) (3774873 / 65536)
    (angleAfterPulse_of (7549747 / 2097152) (5190451 / 131072) (90596963 / 2097152) (2831155 / 65536)
    (roundDouble_eval ((5190451 / 131072) + (7549747 / 2097152)) (90596963 / 2097152) (1 / 140737488355328) (90596963 / 2097152) 5 6079859268780032
      (by rw [abs_of_pos (by norm_num)]; norm_num) (by norm_num) (by norm_num) (by norm_num) (by norm_num)
      (by norm_num) (by norm_num) (by norm_num))
    (roundFloat_eval (90596963 / 2097152) (90596963 / 2097152) (1 / 262144) (2831155 / 65536) 5 11324620
      (abs_of_pos (by norm_num)) (by norm_num) (by norm_num) (by norm_num) (by norm_num)
      (by norm_num) (by norm_num) (by norm_num)))
    (iterate_step _ 3 (2831155 / 65536) (6134169 / 131072) (3774873 / 65536)
    (angleAfterPulse_of (7549747 / 2097152) (2831155 / 65536) (98146707 / 2097152) (6134169 / 131072)
    (roundDouble_eval ((2831155 / 65536) + (7549747 / 2097152)) (98146707 / 2097152) (1 / 140737488355328) (98146707 / 2097152) 5 6586514012110848
      (by rw [abs_of_pos (by norm_num)]; norm_num) (by norm_num) (by norm_num) (by norm_num) (by norm_num)
      (by norm_num) (by norm_num) (by norm_num))
    (roundFloat_eval (98146707 / 2097152) (98146707 / 2097152) (1 / 262144) (6134169 / 131072) 5 12268338
      (abs_of_pos (by norm_num)) (by norm_num) (by norm_num) (by norm_num) (by norm_num)
      (by norm_num) (by norm_num) (by norm_num)))
    (iterate_step _ 2 (6134169 / 131072) (1651507 / 32768) (3774873 / 65536)
    (angleAfterPulse_of (7549747 / 2097152) (6134169 / 131072) (105696451 / 2097152) (1651507 / 32768)
    (roundDouble_eval ((6134169 / 131072) + (7549747 / 2097152)) (105696451 / 2097152) (1 / 140737488355328) (105696451 / 2097152) 5 7093168755441664
      (by rw [abs_of_pos (by norm_num)]; norm_num) (by norm_num) (by norm_num) (by norm_num) (by norm_num)
      (by norm_num) (by norm_num) (by norm_num))
    (roundFloat_eval (105696451 / 2097152) (105696451 / 2097152) (1 / 262144) (1651507 / 32768) 5 13212056
      (abs_of_pos (by norm_num)) (by norm_num) (by norm_num) (by norm_num) (by norm_num)
      (by norm_num) (by norm_num) (by norm_num)))
    (iterate_step _ 1 (1651507 / 32768) (7077887 / 131072) (3774873 / 65536)
    (angleAfterPulse_of (7549747 / 2097152) (1651507 / 32768) (113246195 / 2097152) (7077887 / 131072)
    (roundDouble_eval ((1651507 / 32768) + (7549747 / 2097152)) (113246195 / 2097152) (1 / 140737488355328) (113246195 / 2097152) 5 7599823498772480
      (by rw [abs_of_pos (by norm_num)]; norm_num) (by norm_num) (by norm_num) (by norm_num) (by norm_num)
      (by norm_num) (by norm_num) (by norm_num))
    (roundFloat_eval (113246195 / 2097152) (113246195 / 2097152) (1 / 262144) (7077887 / 131072) 5 14155774
      (abs_of_pos (by norm_num)) (by norm_num) (by norm_num) (by norm_num) (by norm_num)
      (by norm_num) (by norm_num) (by norm_num)))
    (iterate_step _ 0 (7077887 / 131072) (3774873 / 65536) (3774873 / 65536)
    (angleAfterPulse_of (7549747 / 2097152) (7077887 / 131072) (120795939 / 2097152) (3774873 / 65536)
    (roundDouble_eval ((7077887 / 131072) + (7549747 / 2097152)) (120795939 / 2097152) (1 / 140737488355328) (120795939 / 2097152) 5 8106478242103296
      (by rw [abs_of_pos (by norm_num)]; norm_num) (by norm_num) (by norm_num) (by norm_num) (by norm_num)
      (by norm_num) (by norm_num) (by norm_num))
    (roundFloat_eval (120795939 / 2097152) (120795939 / 2097152) (1 / 262144) (3774873 / 65536) 5 15099492
      (abs_of_pos (by norm_num)) (by norm_num) (by norm_num) (by norm_num) (by norm_num)
      (by norm_num) (by norm_num) (by norm_num)))
    (Function.iterate_zero_apply _ _)))))))))))))))))


/-- C9 (the code at the failing input): at 200 steps per revolution and microstep
mode 1 one microstep is the `float` 1.8 and `RotateDegrees(30.0)` issues 16 pulses,
but the joint angle, 0 before the call, is 57.6 afterwards (to within 0.00001):
each pulse adds `2.0 * GetDegreesPerMicroStep()`, twice the 1.8 degrees of the
claim, whose total would be `16 * 1.8 = 28.8`. -/
theorem RotateDegrees_angle_doubled (t : Target) :
    (fullStep200 t).GetDegreesPerMicroStep = 7549747 / 4194304 ∧
      List.count Event.step ((fullStep200 t).RotateDegrees t 30).2.2 = 16 ∧
      (fullStep200 t).stepper_JointAngle = 0 ∧
      ((fullStep200 t).RotateDegrees t 30).2.1.stepper_JointAngle = 3774873 / 65536 ∧
      |((fullStep200 t).RotateDegrees t 30).2.1.stepper_JointAngle - 288 / 5| < 1 / 100000 ∧
      |(fullStep200 t).stepper_JointAngle + 16 * (fullStep200 t).GetDegreesPerMicroStep -
        144 / 5| < 1 / 100000 ∧
      ((fullStep200 t).RotateDegrees t 30).2.1.stepper_JointAngle ≠
        (fullStep200 t).stepper_JointAngle + 16 * (fullStep200 t).GetDegreesPerMicroStep := by
  have hdpm : (fullStep200 t).GetDegreesPerMicroStep = 7549747 / 4194304 :=
    GetDegreesPerMicroStep_200_1 _ rfl rfl
  have hangle : (fullStep200 t).stepper_JointAngle = 0 := rfl
  have hinc : roundDouble (2 * (7549747 / 4194304)) = 7549747 / 2097152 :=
    roundDouble_eval (2 * (7549747 / 4194304)) (7549747 / 2097152) (1 / 2251799813685248) (7549747 / 2097152) 1 8106479114518528
      (by rw [abs_of_pos (by norm_num)]; norm_num) (by norm_num) (by norm_num) (by norm_num) (by norm_num)
      (by norm_num) (by norm_num) (by norm_num)
  have hrot := RotateDegrees_pos t (fullStep200 t) 30 (by norm_num)
  rw [steps_200_1_at_30 t _ rfl rfl, hdpm, hangle, hinc, angle_after_16_pulses_200_1] at hrot
  refine ⟨hdpm, ?_, hangle, ?_, ?_, ?_, ?_⟩
  · rw [hrot]
    simp [count_step_pulseTrain]
  · rw [hrot]
  · rw [hrot]
    rw [abs_lt]
    constructor <;> norm_num
  · rw [hangle, hdpm, abs_lt]
    constructor <;> norm_num
  · rw [hrot, hangle, hdpm]
    norm_num

/-- The degrees per full step at 4000 steps per revolution: the `float` nearest to
the `double` nearest to `360 / 4000`. -/
theorem GetDegreesPerFullStep_4000 (s : Stepper) (h : s.stepper_StepsPerRev = 4000) :
    s.GetDegreesPerFullStep = (3019899 / 33554432) :=
  GetDegreesPerFullStep_of s 4000 (3242591731706757 / 36028797018963968) (3019899 / 33554432) h
    (roundDouble_eval (360 / ((4000 : ℕ) : ℚ)) (9 / 100) (1 / 72057594037927936) (3242591731706757 / 36028797018963968) (-4) 6485183463413514
      (by rw [abs_of_pos (by norm_num)]; norm_num) (by norm_num) (by norm_num) (by norm_num) (by norm_num)
      (by norm_num) (by norm_num) (by norm_num))
    (roundFloat_eval (3242591731706757 / 36028797018963968) (3242591731706757 / 36028797018963968) (1 / 134217728) (3019899 / 33554432) (-4) 12079596
      (abs_of_pos (by norm_num)) (by norm_num) (by norm_num) (by norm_num) (by norm_num)
      (by norm_num) (by norm_num) (by norm_num))

/-- At 4000 steps per revolution in full-step mode 45 degrees are 499 steps: the `float` quotient is 499.99997. -/
theorem steps_4000_1_at_45_float (s : Stepper) (h1 : s.stepper_StepsPerRev = 4000)
    (h2 : s.stepper_MicroStepMode = 1) : s.microstepsFloat 45 = (16383999 / 32768) :=
  microstepsFloat_of s 45 (3019899 / 33554432) (16383999 / 32768) (16383999 / 32768) 1 (by rw [h1]; norm_num) h2
    (GetDegreesPerFullStep_4000 s h1)
    (roundFloat_eval (45 / (3019899 / 33554432)) (503316480 / 1006633) (1 / 32768) (16383999 / 32768) 8 16383999
      (by rw [abs_of_pos (by norm_num)]; norm_num) (by norm_num) (by norm_num) (by norm_num) (by norm_num)
      (by norm_num) (by norm_num) (by norm_num))
    (roundFloat_eval ((16383999 / 32768) * ((1 : ℕ) : ℚ)) (16383999 / 32768) (1 / 32768) (16383999 / 32768) 8 16383999
      (by rw [abs_of_pos (by norm_num)]; norm_num) (by norm_num) (by norm_num) (by norm_num) (by norm_num)
      (by norm_num) (by norm_num) (by norm_num))

theorem steps_4000_1_at_45 (t : Target) (s : Stepper) (h1 : s.stepper_StepsPerRev = 4000)
    (h2 : s.stepper_MicroStepMode = 1) : s.ConvertDegreesToSteps t 45 = 499 :=
  ConvertDegreesToSteps_of t s 45 (16383999 / 32768) 499 (steps_4000_1_at_45_float s h1 h2) (by norm_num)
    (by norm_num) (by norm_num [UINT_RANGE])

/-- At 4000 steps per revolution and 64 microsteps 45 degrees are 31999 microsteps: the `float` product is 31999.998. -/
theorem steps_4000_64_at_45_float (s : Stepper) (h1 : s.stepper_StepsPerRev = 4000)
    (h2 : s.stepper_MicroStepMode = 64) : s.microstepsFloat 45 = (16383999 / 512) :=
  microstepsFloat_of s 45 (3019899 / 33554432) (16383999 / 32768) (16383999 / 512) 64 (by rw [h1]; norm_num) h2
    (GetDegreesPerFullStep_4000 s h1)
    (roundFloat_eval (45 / (3019899 / 33554432)) (503316480 / 1006633) (1 / 32768) (16383999 / 32768) 8 16383999
      (by rw [abs_of_pos (by norm_num)]; norm_num) (by norm_num) (by norm_num) (by norm_num) (by norm_num)
      (by norm_num) (by norm_num) (by norm_num))
    (roundFloat_eval ((16383999 / 32768) * ((64 : ℕ) : ℚ)) (16383999 / 512) (1 / 512) (16383999 / 512) 14 16383999
      (by rw [abs_of_pos (by norm_num)]; norm_num) (by norm_num) (by norm_num) (by norm_num) (by norm_num)
      (by norm_num) (by norm_num) (by norm_num))

theorem steps_4000_64_at_45 (t : Target) (s : Stepper) (h1 : s.stepper_StepsPerRev = 4000)
    (h2 : s.stepper_MicroStepMode = 64) : s.ConvertDegreesToSteps t 45 = 31999 :=
  ConvertDegreesToSteps_of t s 45 (16383999 / 512) 31999 (steps_4000_64_at_45_float s h1 h2) (by norm_num)
    (by norm_num) (by norm_num [UINT_RANGE])

/-- At 200 steps per revolution in full-step mode the `float` nearest to 1.8, which is
below 1.8, is exactly one step: the degrees per full step are that same `float`. -/
theorem steps_200_1_at_dpfs_float (s : Stepper) (h1 : s.stepper_StepsPerRev = 200)
    (h2 : s.stepper_MicroStepMode = 1) : s.microstepsFloat (7549747 / 4194304) = 1 :=
  microstepsFloat_of s (7549747 / 4194304) (7549747 / 4194304) 1 1 1 (by rw [h1]; norm_num) h2
    (GetDegreesPerFullStep_200 s h1)
    (roundFloat_eval ((7549747 / 4194304) / (7549747 / 4194304)) 1 (1 / 8388608) 1 0 8388608
      (by rw [abs_of_pos (by norm_num)]; norm_num) (by norm_num) (by norm_num) (by norm_num) (by norm_num)
      (by norm_num) (by norm_num) (by norm_num))
    (roundFloat_eval (1 * ((1 : ℕ) : ℚ)) 1 (1 / 8388608) 1 0 8388608
      (by rw [abs_of_pos (by norm_num)]; norm_num) (by norm_num) (by norm_num) (by norm_num) (by norm_num)
      (by norm_num) (by norm_num) (by norm_num))

theorem steps_200_1_at_dpfs (t : Target) (s : Stepper) (h1 : s.stepper_StepsPerRev = 200)
    (h2 : s.stepper_MicroStepMode = 1) : s.ConvertDegreesToSteps t (7549747 / 4194304) = 1 :=
  ConvertDegreesToSteps_of t s (7549747 / 4194304) 1 1 (steps_200_1_at_dpfs_float s h1 h2) (by norm_num)
    (by norm_num) (by norm_num [UINT_RANGE])

/-! ## The `float` microstep count against the exact quotient -/

/-- For a 16-bit `stepsPerRevolution ≥ 1` the degrees per full step are within one
part in `2 ^ 23` of `360 / stepsPerRevolution`. -/
theorem GetDegreesPerFullStep_near (s : Stepper) (hspr : 1 ≤ s.stepper_StepsPerRev)
    (hsprT : s.stepper_StepsPerRev < 65536) :
    360 / (s.stepper_StepsPerRev : ℚ) * (8388607 / 8388608) ≤ s.GetDegreesPerFullStep ∧
      s.GetDegreesPerFullStep ≤ 360 / (s.stepper_StepsPerRev : ℚ) * (8388609 / 8388608) := by
  have hq : (1 : ℚ) ≤ (s.stepper_StepsPerRev : ℚ) := by exact_mod_cast hspr
  have hqT : (s.stepper_StepsPerRev : ℚ) ≤ 65535 := by
    have : s.stepper_StepsPerRev ≤ 65535 := by omega
    exact_mod_cast this
  have hc : (1 : ℚ) / 256 ≤ 360 / (s.stepper_StepsPerRev : ℚ) := by
    rw [le_div_iff₀ (by linarith)]
    linarith
  have h1 := roundDouble_error_rel (360 / (s.stepper_StepsPerRev : ℚ))
    (le_trans (by norm_num) hc)
  rw [abs_le] at h1
  have hr : (1 : ℚ) / 512 ≤ roundDouble (360 / (s.stepper_StepsPerRev : ℚ)) := by linarith
  have h2 := roundFloat_error_rel (roundDouble (360 / (s.stepper_StepsPerRev : ℚ)))
    (le_trans (by norm_num) hr)
  rw [abs_le] at h2
  unfold Stepper.GetDegreesPerFullStep
  constructor <;> linarith

/-- For 16-bit `stepsPerRevolution ≥ 1` and `microstepMode ≥ 1` and an angle of at
least half a microstep, the `float` microstep count the source computes is within
one part in `2 ^ 21` of the exact `degrees * stepsPerRevolution * microstepMode /
360`. -/
theorem microstepsFloat_near (s : Stepper) (d : ℚ) (hspr : 1 ≤ s.stepper_StepsPerRev)
    (hsprT : s.stepper_StepsPerRev < 65536) (hmode : 1 ≤ s.stepper_MicroStepMode)
    (hmodeT : s.stepper_MicroStepMode < 65536)
    (hX : 1 / 2 ≤ d * (s.stepper_StepsPerRev : ℚ) * (s.stepper_MicroStepMode : ℚ) / 360) :
    d * (s.stepper_StepsPerRev : ℚ) * (s.stepper_MicroStepMode : ℚ) / 360 *
          (2097151 / 2097152) ≤ s.microstepsFloat d ∧
      s.microstepsFloat d ≤
        d * (s.stepper_StepsPerRev : ℚ) * (s.stepper_MicroStepMode : ℚ) / 360 *
          (2097153 / 2097152) := by
  have hne : s.stepper_StepsPerRev ≠ 0 := by omega
  have hq : (1 : ℚ) ≤ (s.stepper_StepsPerRev : ℚ) := by exact_mod_cast hspr
  have hm : (1 : ℚ) ≤ (s.stepper_MicroStepMode : ℚ) := by exact_mod_cast hmode
  have hmT : (s.stepper_MicroStepMode : ℚ) ≤ 65535 := by
    have : s.stepper_MicroStepMode ≤ 65535 := by omega
    exact_mod_cast this
  obtain ⟨hDlo, hDhi⟩ := GetDegreesPerFullStep_near s hspr hsprT
  have hcpos : (0 : ℚ) < 360 / (s.stepper_StepsPerRev : ℚ) := by positivity
  have hDpos : 0 < s.GetDegreesPerFullStep := by linarith
  -- the exact number of full steps `u` and of microsteps `u * mode`
  have hu : d * (s.stepper_StepsPerRev : ℚ) * (s.stepper_MicroStepMode : ℚ) / 360 =
      d / (360 / (s.stepper_StepsPerRev : ℚ)) * (s.stepper_MicroStepMode : ℚ) := by
    field_simp
  rw [hu] at hX ⊢
  have hd : d = d / (360 / (s.stepper_StepsPerRev : ℚ)) * (360 / (s.stepper_StepsPerRev : ℚ)) := by
    field_simp
  generalize d / (360 / (s.stepper_StepsPerRev : ℚ)) = u at hX hd ⊢
  have hupos : 0 < u := by
    by_contra hneg
    have : u * (s.stepper_MicroStepMode : ℚ) ≤ 0 :=
      mul_nonpos_of_nonpos_of_nonneg (not_lt.mp hneg) (by linarith)
    linarith
  have hulo : (1 : ℚ) / 131070 ≤ u := by
    have : u * (s.stepper_MicroStepMode : ℚ) ≤ u * 65535 :=
      mul_le_mul_of_nonneg_left hmT hupos.le
    linarith
  -- the quotient `degrees / GetDegreesPerFullStep()` before rounding
  have hq0hi : d / s.GetDegreesPerFullStep ≤ u * (8388608 / 8388607) := by
    rw [div_le_iff₀ hDpos, hd]
    have : u * (360 / (s.stepper_StepsPerRev : ℚ)) ≤
        u * (8388608 / 8388607 * s.GetDegreesPerFullStep) :=
      mul_le_mul_of_nonneg_left (by linarith) hupos.le
    linarith
  have hq0lo : u * (8388608 / 8388609) ≤ d / s.GetDegreesPerFullStep := by
    rw [le_div_iff₀ hDpos]
    have : u * (8388608 / 8388609 * s.GetDegreesPerFullStep) ≤
        u * (360 / (s.stepper_StepsPerRev : ℚ)) :=
      mul_le_mul_of_nonneg_left (by linarith) hupos.le
    linarith
  have h1 := roundFloat_error_rel (d / s.GetDegreesPerFullStep)
    (le_trans (by norm_num) (by linarith : (1 : ℚ) / 262144 ≤ d / s.GetDegreesPerFullStep))
  rw [abs_le] at h1
  -- the product with the microstep mode before rounding
  have hp0hi : roundFloat (d / s.GetDegreesPerFullStep) * (s.stepper_MicroStepMode : ℚ) ≤
      u * (8388608 / 8388607) * (16777217 / 16777216) * (s.stepper_MicroStepMode : ℚ) :=
    mul_le_mul_of_nonneg_right (by linarith) (by linarith)
  have hp0lo : u * (8388608 / 8388609) * (16777215 / 16777216) *
      (s.stepper_MicroStepMode : ℚ) ≤
        roundFloat (d / s.GetDegreesPerFullStep) * (s.stepper_MicroStepMode : ℚ) :=
    mul_le_mul_of_nonneg_right (by linarith) (by linarith)
  have hum : u ≤ u * (s.stepper_MicroStepMode : ℚ) := by
    have := mul_le_mul_of_nonneg_left hm hupos.le
    linarith
  have hw : u * (8388608 / 8388609) * (16777215 / 16777216) * (s.stepper_MicroStepMode : ℚ) =
      u * (s.stepper_MicroStepMode : ℚ) * (8388608 / 8388609 * (16777215 / 16777216)) := by
    ring
  have hw2 : u * (8388608 / 8388607) * (16777217 / 16777216) * (s.stepper_MicroStepMode : ℚ) =
      u * (s.stepper_MicroStepMode : ℚ) * (8388608 / 8388607 * (16777217 / 16777216)) := by
    ring
  rw [hw] at hp0lo
  rw [hw2] at hp0hi
  have h2 := roundFloat_error_rel
    (roundFloat (d / s.GetDegreesPerFullStep) * (s.stepper_MicroStepMode : ℚ))
    (le_trans (by norm_num)
      (by linarith : (1 : ℚ) / 524288 ≤
        roundFloat (d / s.GetDegreesPerFullStep) * (s.stepper_MicroStepMode : ℚ)))
  rw [abs_le] at h2
  unfold Stepper.microstepsFloat
  simp only [if_neg hne]
  constructor <;> linarith


/-! ## `ConvertDegreesToSteps` against the spec's formula -/

/-- The `float` microstep count of a non-negative angle is non-negative. -/
theorem microstepsFloat_nonneg (s : Stepper) (d : ℚ) (hd : 0 ≤ d) : 0 ≤ s.microstepsFloat d := by
  unfold Stepper.microstepsFloat
  simp only
  apply roundFloat_nonneg
  apply mul_nonneg _ (Nat.cast_nonneg _)
  split
  · exact le_rfl
  · apply roundFloat_nonneg
    unfold Stepper.GetDegreesPerFullStep
    exact div_nonneg hd (roundFloat_nonneg (roundDouble_nonneg (by positivity)))

/-- The `float` microstep count is monotone on the non-negative angles: the
quotient, its rounding, the product and its rounding all are. -/
theorem microstepsFloat_mono (s : Stepper) (a b : ℚ) (ha : 0 ≤ a) (hab : a ≤ b) :
    s.microstepsFloat a ≤ s.microstepsFloat b := by
  have hdp : 0 ≤ s.GetDegreesPerFullStep := by
    unfold Stepper.GetDegreesPerFullStep
    exact roundFloat_nonneg (roundDouble_nonneg (by positivity))
  unfold Stepper.microstepsFloat
  simp only
  by_cases hspr : s.stepper_StepsPerRev = 0
  · simp only [if_pos hspr]
    exact le_rfl
  · simp only [if_neg hspr]
    have h1 : a / s.GetDegreesPerFullStep ≤ b / s.GetDegreesPerFullStep :=
      div_le_div_of_nonneg_right hab hdp
    have h2 := roundFloat_mono (div_nonneg ha hdp) h1
    have h3 : 0 ≤ roundFloat (a / s.GetDegreesPerFullStep) :=
      roundFloat_nonneg (div_nonneg ha hdp)
    exact roundFloat_mono (mul_nonneg h3 (Nat.cast_nonneg _))
      (mul_le_mul_of_nonneg_right h2 (Nat.cast_nonneg _))

/-- The search loop on a line that reads `LOW` on the next `N` reads and `HIGH` on
the read after them: it returns as soon as the fuel exceeds `N`, after `N`
rotations of 0.5 degrees. -/
theorem zeroLoop_trips (t : Target) (sensor : Nat → Nat → PinLevel) (N : Nat) :
    ∀ (extra k : Nat) (response : stepper_response) (s : Stepper),
      (∀ j, j < N → sensor s.stepper_ZeroPin (k + j) = PinLevel.LOW) →
      sensor s.stepper_ZeroPin (k + N) = PinLevel.HIGH →
      Stepper.zeroLoop t sensor (N + 1 + extra) k response s =
        some (if N = 0 then response else COMPLETED,
          { s with
            stepper_JointAngle :=
              ((angleAfterPulse (roundDouble (2 * s.GetDegreesPerMicroStep)))^[
                s.ConvertDegreesToSteps t (1 / 2)])^[N] s.stepper_JointAngle },
          zeroSearchTrace s.stepper_ZeroPin (toUnsigned t s.stepper_StepDelay)
            (s.ConvertDegreesToSteps t (1 / 2)) N) := by
  induction N with
  | zero =>
    intro extra k response s _ hHigh
    have hfuel : 0 + 1 + extra = extra + 1 := by omega
    rw [hfuel]
    rw [Nat.add_zero] at hHigh
    cases s
    simp only [Stepper.zeroLoop, hHigh]
    simp [zeroSearchTrace]
  | succ N ih =>
    intro extra k response s hLow hHigh
    have hfuel : N + 1 + 1 + extra = (N + 1 + extra) + 1 := by omega
    have h0 : sensor s.stepper_ZeroPin k = PinLevel.LOW := by
      simpa using hLow 0 (by omega)
    rw [hfuel]
    simp only [Stepper.zeroLoop, h0]
    rw [RotateDegrees_pos t s (1 / 2) (by norm_num)]
    simp only
    rw [ih extra (k + 1) COMPLETED _
      (fun j hj => by
        have := hLow (j + 1) (by omega)
        rw [← this]
        congr 1
        omega)
      (by
        rw [← hHigh]
        congr 1
        omega)]
    have hc : ∀ a : ℚ, ({ s with stepper_JointAngle := a } : Stepper).ConvertDegreesToSteps t
        (1 / 2) = s.ConvertDegreesToSteps t (1 / 2) := fun a =>
      ConvertDegreesToSteps_congr t s _ _ rfl rfl
    simp only [hc]
    cases s
    simp [zeroSearchTrace, Function.iterate_succ_apply, Stepper.GetDegreesPerMicroStep,
      Stepper.GetDegreesPerFullStep]

/-- What `FindZeroAngle` does on a zero-switch line that reads `LOW` on its first `N`
reads and `HIGH` on the next one, once the fuel exceeds `N`: the response, the
object on return and the calls made. -/
theorem FindZeroAngle_trips (t : Target) (sensor : Nat → Nat → PinLevel) (N extra : Nat)
    (s : Stepper) (hLow : ∀ j, j < N → sensor s.stepper_ZeroPin j = PinLevel.LOW)
    (hHigh : sensor s.stepper_ZeroPin N = PinLevel.HIGH) :
    s.FindZeroAngle t sensor (N + 1 + extra) =
      some (if N = 0 then ERROR_UNKNOWN else COMPLETED,
        { s with
          stepper_StepDelay := roundFloat (s.ConvertRotationalVelocityToStepDelay t 25 : ℚ)
          stepper_JointAngle := 0 },
        Event.setDirection 0 ::
          zeroSearchTrace s.stepper_ZeroPin
            (toUnsigned t (roundFloat (s.ConvertRotationalVelocityToStepDelay t 25 : ℚ)))
            (s.ConvertDegreesToSteps t (1 / 2)) N) := by
  unfold Stepper.FindZeroAngle
  rw [SetRotationalVelocity_accepts t s 25 (by norm_num) (by norm_num [MAX_ROT_VEL])]
  simp only
  rw [zeroLoop_trips t sensor N extra 0 ERROR_UNKNOWN _
    (fun j hj => by
      rw [Nat.zero_add]
      exact hLow j hj)
    (by
      rw [Nat.zero_add]
      exact hHigh)]
  simp only
  have hc : ∀ a : ℚ, ({ s with stepper_StepDelay := a } : Stepper).ConvertDegreesToSteps t
      (1 / 2) = s.ConvertDegreesToSteps t (1 / 2) := fun a =>
    ConvertDegreesToSteps_congr t s _ _ rfl rfl
  rw [hc]

theorem tripsAfter_low (N pin : Nat) : ∀ j, j < N → tripsAfter N pin j = PinLevel.LOW := by
  intro j hj
  simp [tripsAfter, hj]

theorem tripsAfter_high (N pin : Nat) : tripsAfter N pin N = PinLevel.HIGH := by
  simp [tripsAfter]

theorem count_step_zeroSearchTrace (pin us k n : Nat) :
    List.count Event.step (zeroSearchTrace pin us k n) = n * k := by
  induction n with
  | zero => simp [zeroSearchTrace]
  | succ n ih =>
    simp only [zeroSearchTrace, List.count_cons, List.count_append, count_step_pulseTrain, ih]
    simp
    ring

theorem filter_isSetDirection_pulseTrain (us k : Nat) :
    List.filter isSetDirection (pulseTrain us k) = [] := by
  induction k with
  | zero => rfl
  | succ k ih => simp [pulseTrain, isSetDirection, ih]

theorem filter_isSetDirection_zeroSearchTrace (pin us k n : Nat) :
    List.filter isSetDirection (zeroSearchTrace pin us k n) =
      List.replicate n (Event.setDirection 0) := by
  induction n with
  | zero => simp [zeroSearchTrace, isSetDirection]
  | succ n ih =>
    simp [zeroSearchTrace, isSetDirection, filter_isSetDirection_pulseTrain, ih,
      List.replicate_succ]

theorem everyPulseHeld_pulseTrain_append (us k : Nat) (l : List Event) :
    everyPulseHeld us (pulseTrain us k ++ l) = everyPulseHeld us l := by
  induction k with
  | zero => rfl
  | succ k ih => simp [pulseTrain, everyPulseHeld, ih]

theorem everyPulseHeld_zeroSearchTrace (pin us k n : Nat) :
    everyPulseHeld us (zeroSearchTrace pin us k n) = true := by
  induction n with
  | zero => simp [zeroSearchTrace, everyPulseHeld]
  | succ n ih =>
    simp [zeroSearchTrace, everyPulseHeld, everyPulseHeld_pulseTrain_append, ih]

/-- C12: for every `N`, every axis state (hence every prior joint angle) and every
zero-switch line that reads not-tripped on its first `N` reads and tripped on the
next one, `FindZeroAngle` returns once it is given more than `N` reads, and on
return the joint angle is exactly 0. -/
theorem FindZeroAngle_zeroes (t : Target) (sensor : Nat → Nat → PinLevel) (N extra : Nat)
    (s : Stepper) (hLow : ∀ j, j < N → sensor s.stepper_ZeroPin j = PinLevel.LOW)
    (hHigh : sensor s.stepper_ZeroPin N = PinLevel.HIGH) :
    Option.map (fun r => r.2.1.stepper_JointAngle) (s.FindZeroAngle t sensor (N + 1 + extra)) =
      some 0 := by
  rw [FindZeroAngle_trips t sensor N extra s hLow hHigh]
  rfl

/-- Witness of C12: the base axis of `main.cpp` at joint angle 90, with a line that
trips after 3 reads. -/
theorem FindZeroAngle_zeroes_witness :
    ({ Stepper2 zeroTarget with stepper_JointAngle := 90 } : Stepper).stepper_JointAngle = 90 ∧
      Option.map (fun r => r.2.1.stepper_JointAngle)
        (({ Stepper2 zeroTarget with stepper_JointAngle := 90 } : Stepper).FindZeroAngle
          zeroTarget (tripsAfter 3) (3 + 1 + 0)) = some 0 :=
  ⟨rfl, FindZeroAngle_zeroes zeroTarget (tripsAfter 3) 3 0 _ (tripsAfter_low 3 _)
    (tripsAfter_high 3 _)⟩

/-- C13 (the code at the failing input): when the zero switch is already tripped
on the first read, the loop body never runs and `FindZeroAngle` returns the initial
value `ERROR_UNKNOWN` of `response`, for every axis state, although it has zeroed
the joint angle; with at least one rotation it returns `COMPLETED`. -/
theorem FindZeroAngle_already_tripped (t : Target) (s : Stepper) (extra N : Nat) :
    Option.map (fun r => r.1) (s.FindZeroAngle t (tripsAfter 0) (0 + 1 + extra)) =
        some ERROR_UNKNOWN ∧
      Option.map (fun r => r.2.1.stepper_JointAngle)
        (s.FindZeroAngle t (tripsAfter 0) (0 + 1 + extra)) = some 0 ∧
      Option.map (fun r => r.1)
        (s.FindZeroAngle t (tripsAfter (N + 1)) (N + 1 + 1 + extra)) = some COMPLETED := by
  rw [FindZeroAngle_trips t (tripsAfter 0) 0 extra s (tripsAfter_low 0 _) (tripsAfter_high 0 _),
    FindZeroAngle_trips t (tripsAfter (N + 1)) (N + 1) extra s (tripsAfter_low _ _)
      (tripsAfter_high _ _)]
  simp

/-- C15: on a zero-switch line that reads not-tripped exactly `N` times and then
tripped, `FindZeroAngle` makes, after its own `setDirection(0)`, exactly `N` reads
each followed by one rotation and a last read; it issues exactly
`N * DegreesToMicrosteps(0.5)` step pulses, `DegreesToMicrosteps` being the `float`
computation of the source, and its direction commands are `N + 1` times
`setDirection(0)` and nothing else. -/
theorem FindZeroAngle_search (t : Target) (sensor : Nat → Nat → PinLevel) (N extra : Nat)
    (s : Stepper) (hLow : ∀ j, j < N → sensor s.stepper_ZeroPin j = PinLevel.LOW)
    (hHigh : sensor s.stepper_ZeroPin N = PinLevel.HIGH) :
    ∃ r, s.FindZeroAngle t sensor (N + 1 + extra) = some r ∧
      r.2.2 = Event.setDirection 0 ::
        zeroSearchTrace s.stepper_ZeroPin
          (toUnsigned t (roundFloat (s.ConvertRotationalVelocityToStepDelay t 25 : ℚ)))
          (s.ConvertDegreesToSteps t (1 / 2)) N ∧
      List.count Event.step r.2.2 = N * s.ConvertDegreesToSteps t (1 / 2) ∧
      List.filter isSetDirection r.2.2 = List.replicate (N + 1) (Event.setDirection 0) := by
  refine ⟨_, FindZeroAngle_trips t sensor N extra s hLow hHigh, rfl, ?_, ?_⟩
  · simp [count_step_zeroSearchTrace]
  · simp [isSetDirection, filter_isSetDirection_zeroSearchTrace, List.replicate_succ]

/-- Witness of C15: at 200 steps per revolution and microstep mode 1 half a degree
is less than one step, and a search of 3 rotations issues no step pulse at all. -/
theorem FindZeroAngle_search_witness :
    ∃ r, (fullStep200 zeroTarget).FindZeroAngle zeroTarget (tripsAfter 3) (3 + 1 + 0) =
        some r ∧
      List.count Event.step r.2.2 = 0 ∧
      List.filter isSetDirection r.2.2 = List.replicate 4 (Event.setDirection 0) := by
  obtain ⟨r, hr, _, hcount, hdir⟩ := FindZeroAngle_search zeroTarget (tripsAfter 3) 3 0
    (fullStep200 zeroTarget) (tripsAfter_low 3 _) (tripsAfter_high 3 _)
  rw [steps_200_1_at_half zeroTarget _ rfl rfl] at hcount
  exact ⟨r, hr, hcount, hdir⟩

/-- C16: for every configuration in which 25 degrees per second are at least one
microstep per second, whatever the step delay and velocity before the call,
`FindZeroAngle` on a line that trips after `N` reads returns with the step delay
`VelocityToStepDelay(25) = round_down(1,000,000 / DegreesToMicrosteps(25))`, and
every step pulse it has issued is directly followed by a hold of that delay. -/
theorem FindZeroAngle_calibration_delay (t : Target) (sensor : Nat → Nat → PinLevel)
    (N extra : Nat) (s : Stepper) (hsteps : 1 ≤ s.ConvertDegreesToSteps t 25)
    (hLow : ∀ j, j < N → sensor s.stepper_ZeroPin j = PinLevel.LOW)
    (hHigh : sensor s.stepper_ZeroPin N = PinLevel.HIGH) :
    ∃ r, s.FindZeroAngle t sensor (N + 1 + extra) = some r ∧
      r.2.1.stepper_StepDelay = ((1000000 / s.ConvertDegreesToSteps t 25 : ℕ) : ℚ) ∧
      VelocityToStepDelay_spec (s.ConvertDegreesToSteps t 25) = some r.2.1.stepper_StepDelay ∧
      everyPulseHeld (1000000 / s.ConvertDegreesToSteps t 25) r.2.2 = true := by
  have hd := ConvertRotationalVelocityToStepDelay_eq t s 25 _ hsteps rfl
  have h := FindZeroAngle_trips t sensor N extra s hLow hHigh
  have hlt : 1000000 / s.ConvertDegreesToSteps t 25 < UINT_RANGE := by
    have : 1000000 / s.ConvertDegreesToSteps t 25 ≤ 1000000 := Nat.div_le_self _ _
    simp only [UINT_RANGE]
    omega
  rw [hd, roundFloat_delay, toUnsigned_natCast t _ hlt] at h
  refine ⟨_, h, rfl, ?_, ?_⟩
  · unfold VelocityToStepDelay_spec
    rw [if_neg (by omega)]
    have hf := Rat.floor_natCast_div_natCast 1000000 (s.ConvertDegreesToSteps t 25)
    simp only [Nat.cast_ofNat] at hf
    simp only [hf, Option.some.injEq]
    norm_cast
  · simp [everyPulseHeld, everyPulseHeld_zeroSearchTrace]

/-- Witness of C16: the base axis of `main.cpp` (888 microsteps per second at 25
degrees per second), first set to 90 degrees per second, searched on a line that
trips after 2 reads: the delay on return is 1126 microseconds. -/
theorem FindZeroAngle_calibration_delay_witness :
    ∃ r, ((Stepper2 zeroTarget).SetRotationalVelocity zeroTarget 90).2.FindZeroAngle
        zeroTarget (tripsAfter 2) (2 + 1 + 0) = some r ∧
      r.2.1.stepper_StepDelay = 1126 ∧
      everyPulseHeld 1126 r.2.2 = true := by
  have hcfg : (((Stepper2 zeroTarget).SetRotationalVelocity zeroTarget 90).2).ConvertDegreesToSteps
      zeroTarget 25 = 888 := by
    rw [ConvertDegreesToSteps_congr zeroTarget (Stepper2 zeroTarget) _ 25
      (by rw [SetRotationalVelocity_frame]) (by rw [SetRotationalVelocity_frame])]
    exact Stepper2_steps_25 zeroTarget
  obtain ⟨r, hr, hdelay, _, hheld⟩ := FindZeroAngle_calibration_delay zeroTarget (tripsAfter 2)
    2 0 ((Stepper2 zeroTarget).SetRotationalVelocity zeroTarget 90).2
    (by rw [hcfg]; norm_num) (tripsAfter_low 2 _) (tripsAfter_high 2 _)
  rw [hcfg] at hdelay hheld
  exact ⟨r, hr, by rw [hdelay]; norm_num, hheld⟩


/-! ## The initial step delay -/

/-- C14: an axis constructed with 4000 steps per revolution and microstep mode 64,
whatever its other parameters, has the default velocity 45 and a nonzero initial
step delay of 31 microseconds, the hand-computed
`round_down(1,000,000 / round_down((45 / (360/4000)) * 64)) = round_down(1,000,000 / 32000)
= 31`.  (In `float` the microsteps per second are 31999, not 32000; the delay
`round_down(1,000,000 / 31999)` is 31 all the same.) -/
theorem Stepper_initial_StepDelay (t : Target) (JointAngle0 : ℚ)
    (CSPin ZeroPin CurrentLineLimit : Nat) (CoilInductance CoilVoltage : ℚ) :
    (Stepper.Stepper t JointAngle0 CSPin ZeroPin CurrentLineLimit 64 4000 CoilInductance
        CoilVoltage).stepper_RotationalVelocity = 45 ∧
      DegreesToMicrosteps_spec 4000 64 45 = 32000 ∧
      VelocityToStepDelay_spec 32000 = some 31 ∧
      (Stepper.Stepper t JointAngle0 CSPin ZeroPin CurrentLineLimit 64 4000 CoilInductance
        CoilVoltage).stepper_StepDelay = 31 ∧
      (Stepper.Stepper t JointAngle0 CSPin ZeroPin CurrentLineLimit 64 4000 CoilInductance
        CoilVoltage).stepper_StepDelay ≠ 0 ∧
      (Stepper.Stepper t JointAngle0 CSPin ZeroPin CurrentLineLimit 64 4000 CoilInductance
        CoilVoltage).ConvertDegreesToSteps t 45 = 31999 := by
  have hdelay : (Stepper.Stepper t JointAngle0 CSPin ZeroPin CurrentLineLimit 64 4000
      CoilInductance CoilVoltage).stepper_StepDelay = 31 := by
    simp only [Stepper.Stepper]
    rw [ConvertRotationalVelocityToStepDelay_eq t _ 45 31999 (by norm_num)
      (steps_4000_64_at_45 t _ rfl rfl), roundFloat_natCast _ (by norm_num)]
    norm_num
  refine ⟨rfl, ?_, ?_, hdelay, ?_, steps_4000_64_at_45 t _ rfl rfl⟩
  · unfold DegreesToMicrosteps_spec
    rw [Int.floor_eq_iff]
    constructor <;> norm_num
  · unfold VelocityToStepDelay_spec
    rw [if_neg (by norm_num)]
    have : ⌊(1000000 : ℚ) / ((32000 : ℕ) : ℚ)⌋ = 31 := by
      rw [Int.floor_eq_iff]
      constructor <;> norm_num
    rw [this]
    norm_num
  · rw [hdelay]
    norm_num

/-! ## The unguarded division, the reserved responses, initialisation -/

/-- For 16-bit `stepsPerRevolution ≥ 1` and `microstepMode ≥ 1` and a velocity of at
most 360 the `float` microstep count fits an `unsigned int`. -/
theorem microstepsFloat_fits (s : Stepper) (v : ℚ) (hspr : 1 ≤ s.stepper_StepsPerRev)
    (hsprT : s.stepper_StepsPerRev < 65536) (hmode : 1 ≤ s.stepper_MicroStepMode)
    (hmodeT : s.stepper_MicroStepMode < 65536) (h0 : 0 ≤ v) (h1 : v ≤ 360) :
    s.microstepsFloat v < (UINT_RANGE : ℚ) := by
  have hq : (1 : ℚ) ≤ (s.stepper_StepsPerRev : ℚ) := by exact_mod_cast hspr
  have hqT : (s.stepper_StepsPerRev : ℚ) ≤ 65535 := by
    have : s.stepper_StepsPerRev ≤ 65535 := by omega
    exact_mod_cast this
  have hm : (1 : ℚ) ≤ (s.stepper_MicroStepMode : ℚ) := by exact_mod_cast hmode
  have hmT : (s.stepper_MicroStepMode : ℚ) ≤ 65535 := by
    have : s.stepper_MicroStepMode ≤ 65535 := by omega
    exact_mod_cast this
  have hX : (360 : ℚ) * (s.stepper_StepsPerRev : ℚ) * (s.stepper_MicroStepMode : ℚ) / 360 =
      (s.stepper_StepsPerRev : ℚ) * (s.stepper_MicroStepMode : ℚ) := by
    field_simp
    ring
  have hprod1 : (1 : ℚ) ≤ (s.stepper_StepsPerRev : ℚ) * (s.stepper_MicroStepMode : ℚ) :=
    one_le_mul_of_one_le_of_one_le hq hm
  have hprod : (s.stepper_StepsPerRev : ℚ) * (s.stepper_MicroStepMode : ℚ) ≤ 65535 * 65535 :=
    mul_le_mul hqT hmT (by linarith) (by norm_num)
  have hnear := (microstepsFloat_near s 360 hspr hsprT hmode hmodeT (by rw [hX]; linarith)).2
  rw [hX] at hnear
  have hmono := microstepsFloat_mono s v 360 h0 h1
  have : (UINT_RANGE : ℚ) = 4294967296 := by norm_num [UINT_RANGE]
  rw [this]
  linarith

/-- Counterexample to C17 as stated.  At 200 steps per revolution and microstep mode
1 take `v = 1.8f`, the `float` nearest to 1.8, which is 1.79999995...: it is in
range and `v * 200 * 1 < 360`, yet the divisor `DegreesToMicrosteps(v)` is 1, not 0,
on every target, because the degrees per full step are that same `float`; the
delay is computed without a division by zero and is 1000000. -/
theorem SetRotationalVelocity_division_unguarded_counterexample :
    roundFloat (roundDouble (9 / 5)) = 7549747 / 4194304 ∧
      ((0 : ℚ) < 7549747 / 4194304 ∧ (7549747 / 4194304 : ℚ) ≤ MAX_ROT_VEL) ∧
      (∀ t : Target, 1 ≤ (fullStep200 t).stepper_StepsPerRev ∧
        1 ≤ (fullStep200 t).stepper_MicroStepMode ∧
        (7549747 / 4194304 : ℚ) * ((fullStep200 t).stepper_StepsPerRev : ℚ) *
          ((fullStep200 t).stepper_MicroStepMode : ℚ) < 360 ∧
        (fullStep200 t).ConvertDegreesToSteps t (7549747 / 4194304) = 1 ∧
        (fullStep200 t).ConvertRotationalVelocityToStepDelay t (7549747 / 4194304) =
          1000000) := by
  have hlit : roundFloat (roundDouble (9 / 5)) = 7549747 / 4194304 := by
    rw [(roundDouble_eval (9 / 5) (9 / 5) (1 / 4503599627370496) (8106479329266893 / 4503599627370496) 0 8106479329266893
      (abs_of_pos (by norm_num)) (by norm_num) (by norm_num) (by norm_num) (by norm_num)
      (by norm_num) (by norm_num) (by norm_num))]
    exact (roundFloat_eval (8106479329266893 / 4503599627370496) (8106479329266893 / 4503599627370496) (1 / 8388608) (7549747 / 4194304) 0 15099494
      (abs_of_pos (by norm_num)) (by norm_num) (by norm_num) (by norm_num) (by norm_num)
      (by norm_num) (by norm_num) (by norm_num))
  refine ⟨hlit, ⟨by norm_num, by norm_num [MAX_ROT_VEL]⟩, fun t => ⟨by show 1 ≤ 200; norm_num, by show 1 ≤ 1; norm_num, ?_,
    steps_200_1_at_dpfs t _ rfl rfl, ?_⟩⟩
  · have h1 : (fullStep200 t).stepper_StepsPerRev = 200 := rfl
    have h2 : (fullStep200 t).stepper_MicroStepMode = 1 := rfl
    rw [h1, h2]
    norm_num
  · rw [ConvertRotationalVelocityToStepDelay_eq t _ _ 1 (by norm_num)
      (steps_200_1_at_dpfs t _ rfl rfl)]

/-- C17 (amended): for every configuration with `1 ≤ stepsPerRevolution` and
`1 ≤ microstepMode` (both 16-bit values) and every `v` with `0 < v ≤ MAX_ROT_VEL`,
`SetRotationalVelocity(v)` passes both input checks and answers `SUCCESS`, never
`ERROR_UNKNOWN`; the divisor `DegreesToMicrosteps(v)` of the delay computation is
zero exactly when the `float` microstep count the source computes for `v` is below
1, which is so whenever `v * stepsPerRevolution * microstepMode ≤ 360 * (1 - 2^-20)`
and is not so whenever `v * stepsPerRevolution * microstepMode ≥ 360 * (1 + 2^-20)`;
and when the divisor is zero the delay returned is the conversion of the infinite
quotient `1000000.0 / 0`. -/
theorem SetRotationalVelocity_division_unguarded (t : Target) (s : Stepper) (v : ℚ)
    (hspr : 1 ≤ s.stepper_StepsPerRev) (hsprT : s.stepper_StepsPerRev < 65536)
    (hmode : 1 ≤ s.stepper_MicroStepMode) (hmodeT : s.stepper_MicroStepMode < 65536)
    (h0 : 0 < v) (h1 : v ≤ MAX_ROT_VEL) :
    (v ≠ 0 ∧ ¬ v > MAX_ROT_VEL) ∧
      (s.SetRotationalVelocity t v).1 = SUCCESS ∧
      (s.ConvertDegreesToSteps t v = 0 ↔ s.microstepsFloat v < 1) ∧
      (v * (s.stepper_StepsPerRev : ℚ) * (s.stepper_MicroStepMode : ℚ) ≤
          360 * (1048575 / 1048576) → s.ConvertDegreesToSteps t v = 0) ∧
      (360 * (1048577 / 1048576) ≤
          v * (s.stepper_StepsPerRev : ℚ) * (s.stepper_MicroStepMode : ℚ) →
        1 ≤ s.ConvertDegreesToSteps t v) ∧
      (s.ConvertDegreesToSteps t v = 0 →
        s.ConvertRotationalVelocityToStepDelay t v = t.infinite % UINT_RANGE) := by
  have hq : (1 : ℚ) ≤ (s.stepper_StepsPerRev : ℚ) := by exact_mod_cast hspr
  have hm : (1 : ℚ) ≤ (s.stepper_MicroStepMode : ℚ) := by exact_mod_cast hmode
  have hqm : (0 : ℚ) < (s.stepper_StepsPerRev : ℚ) * (s.stepper_MicroStepMode : ℚ) := by
    positivity
  have h100 : v ≤ 100 := h1
  have hnn := microstepsFloat_nonneg s v h0.le
  have hfit := microstepsFloat_fits s v hspr hsprT hmode hmodeT h0.le (by linarith)
  have hfloor : ((s.ConvertDegreesToSteps t v : ℕ) : ℤ) = ⌊s.microstepsFloat v⌋ :=
    toUnsigned_of_nonneg t _ hnn hfit
  have hiff : s.ConvertDegreesToSteps t v = 0 ↔ s.microstepsFloat v < 1 := by
    constructor
    · intro hz
      rw [hz] at hfloor
      have hfl : ⌊s.microstepsFloat v⌋ = 0 := by
        rw [← hfloor]
        rfl
      rw [Int.floor_eq_iff] at hfl
      simpa using hfl.2
    · intro hlt
      have hfl : ⌊s.microstepsFloat v⌋ = 0 := by
        rw [Int.floor_eq_iff]
        exact ⟨by simpa using hnn, by simpa using hlt⟩
      rw [hfl] at hfloor
      exact_mod_cast hfloor
  have hacc := SetRotationalVelocity_accepts t s v (ne_of_gt h0) h1
  refine ⟨⟨ne_of_gt h0, not_lt.mpr h1⟩, by rw [hacc], hiff, ?_, ?_, ?_⟩
  · intro hle
    rw [hiff]
    have hv : v ≤ 360 * (1048575 / 1048576) /
        ((s.stepper_StepsPerRev : ℚ) * (s.stepper_MicroStepMode : ℚ)) := by
      rw [le_div_iff₀ hqm]
      linarith
    have hX : 360 * (1048575 / 1048576) /
        ((s.stepper_StepsPerRev : ℚ) * (s.stepper_MicroStepMode : ℚ)) *
          (s.stepper_StepsPerRev : ℚ) * (s.stepper_MicroStepMode : ℚ) / 360 =
        1048575 / 1048576 := by
      field_simp
      ring
    have hnear := (microstepsFloat_near s _ hspr hsprT hmode hmodeT
      (by rw [hX]; norm_num)).2
    rw [hX] at hnear
    have hmono := microstepsFloat_mono s v _ h0.le hv
    have : (1048575 : ℚ) / 1048576 * (2097153 / 2097152) < 1 := by norm_num
    linarith
  · intro hge
    have hX : 1048577 / 1048576 ≤
        v * (s.stepper_StepsPerRev : ℚ) * (s.stepper_MicroStepMode : ℚ) / 360 := by
      rw [le_div_iff₀ (by norm_num)]
      linarith
    have hnear := (microstepsFloat_near s v hspr hsprT hmode hmodeT (by linarith)).1
    have hone : 1 ≤ s.microstepsFloat v := by linarith
    have hfl : (1 : ℤ) ≤ ⌊s.microstepsFloat v⌋ := by
      rw [Int.le_floor]
      simpa using hone
    rw [← hfloor] at hfl
    exact_mod_cast hfl
  · intro hz
    unfold Stepper.ConvertRotationalVelocityToStepDelay
    simp only [hz, if_true]

/-- Witness of C17 (amended): at 200 steps per revolution and microstep mode 1,
`v = 1` is in range, passes both checks, and `1 * 200 * 1 ≤ 360 * (1 - 2^-20)`, so
the divisor is 0 and the delay computation divides by zero. -/
theorem SetRotationalVelocity_division_unguarded_witness :
    ((fullStep200 zeroTarget).SetRotationalVelocity zeroTarget 1).1 = SUCCESS ∧
      (fullStep200 zeroTarget).ConvertDegreesToSteps zeroTarget 1 = 0 ∧
      (fullStep200 zeroTarget).ConvertRotationalVelocityToStepDelay zeroTarget 1 =
        zeroTarget.infinite % UINT_RANGE := by
  have h := SetRotationalVelocity_division_unguarded zeroTarget (fullStep200 zeroTarget) 1
    (by decide) (by decide) (by decide) (by decide) (by norm_num) (by norm_num [MAX_ROT_VEL])
  have h1 : (fullStep200 zeroTarget).stepper_StepsPerRev = 200 := rfl
  have h2 : (fullStep200 zeroTarget).stepper_MicroStepMode = 1 := rfl
  have hz : (fullStep200 zeroTarget).ConvertDegreesToSteps zeroTarget 1 = 0 :=
    h.2.2.2.1 (by rw [h1, h2]; norm_num)
  exact ⟨h.2.1, hz, h.2.2.2.2.2 hz⟩

/-- The response of `RotateDegrees` is `COMPLETED` on every path. -/
theorem RotateDegrees_response (t : Target) (s : Stepper) (d : ℚ) :
    (s.RotateDegrees t d).1 = COMPLETED := by
  unfold Stepper.RotateDegrees
  split_ifs <;> rfl

/-- The search loop returns either the response it was entered with or
`COMPLETED`. -/
theorem zeroLoop_response (t : Target) (sensor : Nat → Nat → PinLevel) (fuel : Nat) :
    ∀ (k : Nat) (response : stepper_response) (s : Stepper)
      (out : stepper_response × Stepper × List Event),
      Stepper.zeroLoop t sensor fuel k response s = some out →
        out.1 = response ∨ out.1 = COMPLETED := by
  induction fuel with
  | zero =>
    intro k response s out h
    simp [Stepper.zeroLoop] at h
  | succ fuel ih =>
    intro k response s out h
    rw [Stepper.zeroLoop] at h
    cases hs : sensor s.stepper_ZeroPin k with
    | HIGH =>
      rw [hs] at h
      simp only [Option.some.injEq] at h
      left
      rw [← h]
    | LOW =>
      rw [hs] at h
      simp only at h
      cases hrec : Stepper.zeroLoop t sensor fuel (k + 1) (s.RotateDegrees t (1 / 2)).1
          (s.RotateDegrees t (1 / 2)).2.1 with
      | none =>
        rw [hrec] at h
        simp at h
      | some out1 =>
        rw [hrec] at h
        simp only [Option.some.injEq] at h
        have := ih _ _ _ _ hrec
        rw [RotateDegrees_response] at this
        right
        rw [← h]
        rcases this with h1 | h1 <;> exact h1

/-- Whenever `FindZeroAngle` returns, its response is `ERROR_UNKNOWN` or
`COMPLETED`. -/
theorem FindZeroAngle_response (t : Target) (sensor : Nat → Nat → PinLevel) (fuel : Nat)
    (s : Stepper) :
    Option.map (fun r => r.1) (s.FindZeroAngle t sensor fuel) = none ∨
      Option.map (fun r => r.1) (s.FindZeroAngle t sensor fuel) = some ERROR_UNKNOWN ∨
      Option.map (fun r => r.1) (s.FindZeroAngle t sensor fuel) = some COMPLETED := by
  unfold Stepper.FindZeroAngle
  simp only
  cases hrec : Stepper.zeroLoop t sensor fuel 0 ERROR_UNKNOWN (s.SetRotationalVelocity t 25).2 with
  | none => simp
  | some out =>
    right
    rcases zeroLoop_response t sensor fuel _ _ _ _ hrec with h | h <;> simp [h]

/-- C18: for every axis state, every velocity, every angle and every sensor trace
(and every bound on the number of reads), none of `SetRotationalVelocity`,
`RotateDegrees` and `FindZeroAngle` returns `STALL` or `TIMEOUT_ON_FIND_ZERO`, and
`RotateDegrees` returns `COMPLETED`. -/
theorem reserved_responses_never_raised (t : Target) (s : Stepper) (v d : ℚ)
    (sensor : Nat → Nat → PinLevel) (fuel : Nat) :
    ((s.SetRotationalVelocity t v).1 ≠ STALL ∧
        (s.SetRotationalVelocity t v).1 ≠ TIMEOUT_ON_FIND_ZERO) ∧
      (s.RotateDegrees t d).1 = COMPLETED ∧
      Option.map (fun r => r.1) (s.FindZeroAngle t sensor fuel) ≠ some STALL ∧
      Option.map (fun r => r.1) (s.FindZeroAngle t sensor fuel) ≠
        some TIMEOUT_ON_FIND_ZERO := by
  refine ⟨?_, RotateDegrees_response t s d, ?_, ?_⟩
  · rcases SetRotationalVelocity_cases t s v with h | h | h <;> rw [h] <;> simp
  · rcases FindZeroAngle_response t sensor fuel s with h | h | h <;> rw [h] <;> simp
  · rcases FindZeroAngle_response t sensor fuel s with h | h | h <;> rw [h] <;> simp

/-- C19 (the code at the failing input): the shoulder axis `Stepper1` of `main.cpp`
is constructed with zero-switch line 32, and `FindZeroAngle` reads line 32, but
`InitStepper` configures line 14 as an input, between binding chip select 33 and
resetting the driver; it never configures line 32. -/
theorem InitStepper_configures_pin_14 (t : Target) :
    (Stepper1 t).stepper_ZeroPin = 32 ∧
      (Stepper1 t).InitStepper =
        [Event.setChipSelectPin 33, Event.pinModeInput 14, Event.delay 1,
          Event.resetSettings, Event.clearStatus, Event.setDecayModeAutoMixed,
          Event.setCurrentMilliamps36v4 1680, Event.setStepMode 1, Event.setDirection 0,
          Event.enableDriver] ∧
      Event.pinModeInput 32 ∉ (Stepper1 t).InitStepper ∧
      Option.map (fun r => r.2.2) ((Stepper1 t).FindZeroAngle t (tripsAfter 0) (0 + 1 + 0)) =
        some [Event.setDirection 0, Event.digitalRead 32] := by
  refine ⟨rfl, rfl, ?_, ?_⟩
  · simp [Stepper.InitStepper]
  · rw [FindZeroAngle_trips t (tripsAfter 0) 0 0 (Stepper1 t) (tripsAfter_low 0 _)
      (tripsAfter_high 0 _)]
    rfl


/-- At 4000 steps per revolution in full-step mode 9 degrees are 99 steps, one below
the exact quotient: the `float` degrees per full step are above 0.09. -/
theorem steps_4000_1_at_9_float (s : Stepper) (h1 : s.stepper_StepsPerRev = 4000)
    (h2 : s.stepper_MicroStepMode = 1) : s.microstepsFloat 9 = (13107199 / 131072) :=
  microstepsFloat_of s 9 (3019899 / 33554432) (13107199 / 131072) (13107199 / 131072) 1 (by rw [h1]; norm_num) h2
    (GetDegreesPerFullStep_4000 s h1)
    (roundFloat_eval (9 / (3019899 / 33554432)) (100663296 / 1006633) (1 / 131072) (13107199 / 131072) 6 13107199
      (by rw [abs_of_pos (by norm_num)]; norm_num) (by norm_num) (by norm_num) (by norm_num) (by norm_num)
      (by norm_num) (by norm_num) (by norm_num))
    (roundFloat_eval ((13107199 / 131072) * ((1 : ℕ) : ℚ)) (13107199 / 131072) (1 / 131072) (13107199 / 131072) 6 13107199
      (by rw [abs_of_pos (by norm_num)]; norm_num) (by norm_num) (by norm_num) (by norm_num) (by norm_num)
      (by norm_num) (by norm_num) (by norm_num))

theorem steps_4000_1_at_9 (t : Target) (s : Stepper) (h1 : s.stepper_StepsPerRev = 4000)
    (h2 : s.stepper_MicroStepMode = 1) : s.ConvertDegreesToSteps t 9 = 99 :=
  ConvertDegreesToSteps_of t s 9 (13107199 / 131072) 99 (steps_4000_1_at_9_float s h1 h2) (by norm_num)
    (by norm_num) (by norm_num [UINT_RANGE])

/-- At 4000 steps per revolution in full-step mode 90 degrees are 999 steps, one below
the exact quotient: the `float` degrees per full step are above 0.09. -/
theorem steps_4000_1_at_90_float (s : Stepper) (h1 : s.stepper_StepsPerRev = 4000)
    (h2 : s.stepper_MicroStepMode = 1) : s.microstepsFloat 90 = (16383999 / 16384) :=
  microstepsFloat_of s 90 (3019899 / 33554432) (16383999 / 16384) (16383999 / 16384) 1 (by rw [h1]; norm_num) h2
    (GetDegreesPerFullStep_4000 s h1)
    (roundFloat_eval (90 / (3019899 / 33554432)) (1006632960 / 1006633) (1 / 16384) (16383999 / 16384) 9 16383999
      (by rw [abs_of_pos (by norm_num)]; norm_num) (by norm_num) (by norm_num) (by norm_num) (by norm_num)
      (by norm_num) (by norm_num) (by norm_num))
    (roundFloat_eval ((16383999 / 16384) * ((1 : ℕ) : ℚ)) (16383999 / 16384) (1 / 16384) (16383999 / 16384) 9 16383999
      (by rw [abs_of_pos (by norm_num)]; norm_num) (by norm_num) (by norm_num) (by norm_num) (by norm_num)
      (by norm_num) (by norm_num) (by norm_num))

theorem steps_4000_1_at_90 (t : Target) (s : Stepper) (h1 : s.stepper_StepsPerRev = 4000)
    (h2 : s.stepper_MicroStepMode = 1) : s.ConvertDegreesToSteps t 90 = 999 :=
  ConvertDegreesToSteps_of t s 90 (16383999 / 16384) 999 (steps_4000_1_at_90_float s h1 h2) (by norm_num)
    (by norm_num) (by norm_num [UINT_RANGE])

/-- At 4000 steps per revolution in full-step mode 360 degrees are 3999 steps, one below
the exact quotient: the `float` degrees per full step are above 0.09. -/
theorem steps_4000_1_at_360_float (s : Stepper) (h1 : s.stepper_StepsPerRev = 4000)
    (h2 : s.stepper_MicroStepMode = 1) : s.microstepsFloat 360 = (16383999 / 4096) :=
  microstepsFloat_of s 360 (3019899 / 33554432) (16383999 / 4096) (16383999 / 4096) 1 (by rw [h1]; norm_num) h2
    (GetDegreesPerFullStep_4000 s h1)
    (roundFloat_eval (360 / (3019899 / 33554432)) (4026531840 / 1006633) (1 / 4096) (16383999 / 4096) 11 16383999
      (by rw [abs_of_pos (by norm_num)]; norm_num) (by norm_num) (by norm_num) (by norm_num) (by norm_num)
      (by norm_num) (by norm_num) (by norm_num))
    (roundFloat_eval ((16383999 / 4096) * ((1 : ℕ) : ℚ)) (16383999 / 4096) (1 / 4096) (16383999 / 4096) 11 16383999
      (by rw [abs_of_pos (by norm_num)]; norm_num) (by norm_num) (by norm_num) (by norm_num) (by norm_num)
      (by norm_num) (by norm_num) (by norm_num))

theorem steps_4000_1_at_360 (t : Target) (s : Stepper) (h1 : s.stepper_StepsPerRev = 4000)
    (h2 : s.stepper_MicroStepMode = 1) : s.ConvertDegreesToSteps t 360 = 3999 :=
  ConvertDegreesToSteps_of t s 360 (16383999 / 4096) 3999 (steps_4000_1_at_360_float s h1 h2) (by norm_num)
    (by norm_num) (by norm_num [UINT_RANGE])

/-- The degrees per full step at 2520 steps per revolution: the `float` nearest to
the `double` nearest to `360 / 2520`. -/
theorem GetDegreesPerFullStep_2520 (s : Stepper) (h : s.stepper_StepsPerRev = 2520) :
    s.GetDegreesPerFullStep = (9586981 / 67108864) :=
  GetDegreesPerFullStep_of s 2520 (2573485501354569 / 18014398509481984) (9586981 / 67108864) h
    (roundDouble_eval (360 / ((2520 : ℕ) : ℚ)) (1 / 7) (1 / 36028797018963968) (2573485501354569 / 18014398509481984) (-3) 5146971002709138
      (by rw [abs_of_pos (by norm_num)]; norm_num) (by norm_num) (by norm_num) (by norm_num) (by norm_num)
      (by norm_num) (by norm_num) (by norm_num))
    (roundFloat_eval (2573485501354569 / 18014398509481984) (2573485501354569 / 18014398509481984) (1 / 67108864) (9586981 / 67108864) (-3) 9586981
      (abs_of_pos (by norm_num)) (by norm_num) (by norm_num) (by norm_num) (by norm_num)
      (by norm_num) (by norm_num) (by norm_num))

/-- At 2520 steps per revolution and 2 microsteps half a degree is 6 microsteps: the
`float` product is below the exact 7. -/
theorem steps_2520_2_at_half_float (s : Stepper) (h1 : s.stepper_StepsPerRev = 2520)
    (h2 : s.stepper_MicroStepMode = 2) : s.microstepsFloat (1 / 2) = (14680063 / 2097152) :=
  microstepsFloat_of s (1 / 2) (9586981 / 67108864) (14680063 / 4194304) (14680063 / 2097152) 2 (by rw [h1]; norm_num) h2
    (GetDegreesPerFullStep_2520 s h1)
    (roundFloat_eval ((1 / 2) / (9586981 / 67108864)) (33554432 / 9586981) (1 / 4194304) (14680063 / 4194304) 1 14680063
      (by rw [abs_of_pos (by norm_num)]; norm_num) (by norm_num) (by norm_num) (by norm_num) (by norm_num)
      (by norm_num) (by norm_num) (by norm_num))
    (roundFloat_eval ((14680063 / 4194304) * ((2 : ℕ) : ℚ)) (14680063 / 2097152) (1 / 2097152) (14680063 / 2097152) 2 14680063
      (by rw [abs_of_pos (by norm_num)]; norm_num) (by norm_num) (by norm_num) (by norm_num) (by norm_num)
      (by norm_num) (by norm_num) (by norm_num))

theorem steps_2520_2_at_half (t : Target) (s : Stepper) (h1 : s.stepper_StepsPerRev = 2520)
    (h2 : s.stepper_MicroStepMode = 2) : s.ConvertDegreesToSteps t (1 / 2) = 6 :=
  ConvertDegreesToSteps_of t s (1 / 2) (14680063 / 2097152) 6 (steps_2520_2_at_half_float s h1 h2) (by norm_num)
    (by norm_num) (by norm_num [UINT_RANGE])

/-- At 2520 steps per revolution in full-step mode 25 degrees are 174 steps: the
`float` quotient is below the exact 175. -/
theorem steps_2520_1_at_25_float (s : Stepper) (h1 : s.stepper_StepsPerRev = 2520)
    (h2 : s.stepper_MicroStepMode = 1) : s.microstepsFloat 25 = (11468799 / 65536) :=
  microstepsFloat_of s 25 (9586981 / 67108864) (11468799 / 65536) (11468799 / 65536) 1 (by rw [h1]; norm_num) h2
    (GetDegreesPerFullStep_2520 s h1)
    (roundFloat_eval (25 / (9586981 / 67108864)) (1677721600 / 9586981) (1 / 65536) (11468799 / 65536) 7 11468799
      (by rw [abs_of_pos (by norm_num)]; norm_num) (by norm_num) (by norm_num) (by norm_num) (by norm_num)
      (by norm_num) (by norm_num) (by norm_num))
    (roundFloat_eval ((11468799 / 65536) * ((1 : ℕ) : ℚ)) (11468799 / 65536) (1 / 65536) (11468799 / 65536) 7 11468799
      (by rw [abs_of_pos (by norm_num)]; norm_num) (by norm_num) (by norm_num) (by norm_num) (by norm_num)
      (by norm_num) (by norm_num) (by norm_num))

theorem steps_2520_1_at_25 (t : Target) (s : Stepper) (h1 : s.stepper_StepsPerRev = 2520)
    (h2 : s.stepper_MicroStepMode = 1) : s.ConvertDegreesToSteps t 25 = 174 :=
  ConvertDegreesToSteps_of t s 25 (11468799 / 65536) 174 (steps_2520_1_at_25_float s h1 h2) (by norm_num)
    (by norm_num) (by norm_num [UINT_RANGE])

/-- The degrees per microstep at 200 steps per revolution and microstep mode 64. -/
theorem GetDegreesPerMicroStep_200_64 (s : Stepper) (h1 : s.stepper_StepsPerRev = 200)
    (h2 : s.stepper_MicroStepMode = 64) : s.GetDegreesPerMicroStep = (7549747 / 268435456) :=
  GetDegreesPerMicroStep_of s 64 (7549747 / 4194304) (7549747 / 268435456) h2 (GetDegreesPerFullStep_200 s h1)
    (roundFloat_eval ((7549747 / 4194304) / ((64 : ℕ) : ℚ)) (7549747 / 268435456) (1 / 536870912) (7549747 / 268435456) (-6) 15099494
      (by rw [abs_of_pos (by norm_num)]; norm_num) (by norm_num) (by norm_num) (by norm_num) (by norm_num)
      (by norm_num) (by norm_num) (by norm_num))


/-! ## Values at the configurations of `main.cpp` -/

/-- On the shoulder axis `Stepper1` of `main.cpp` (4000 steps per revolution,
full-step mode) 9, 45, 90 and 360 degrees are 99, 499, 999 and 3999 steps, each one
below the exact quotient, on every target. -/
theorem Stepper1_steps (t : Target) :
    (Stepper1 t).ConvertDegreesToSteps t 9 = 99 ∧
      (Stepper1 t).ConvertDegreesToSteps t 45 = 499 ∧
      (Stepper1 t).ConvertDegreesToSteps t 90 = 999 ∧
      (Stepper1 t).ConvertDegreesToSteps t 360 = 3999 :=
  ⟨steps_4000_1_at_9 t _ rfl rfl, steps_4000_1_at_45 t _ rfl rfl,
    steps_4000_1_at_90 t _ rfl rfl, steps_4000_1_at_360 t _ rfl rfl⟩

/-- On the shoulder axis `SetRotationalVelocity(45)` stores the step delay
`1000000 / 499 = 2004` microseconds. -/
theorem Stepper1_set_45 (t : Target) :
    (Stepper1 t).SetRotationalVelocity t 45 =
      (SUCCESS, { Stepper1 t with stepper_StepDelay := 2004 }) := by
  rw [SetRotationalVelocity_accepts t _ 45 (by norm_num) (by norm_num [MAX_ROT_VEL]),
    ConvertRotationalVelocityToStepDelay_eq t _ 45 499 (by norm_num)
      (steps_4000_1_at_45 t _ rfl rfl), roundFloat_natCast _ (by norm_num)]
  norm_num

/-- On the shoulder axis `RotateDegrees(90)` issues 999 pulses. -/
theorem Stepper1_rotate_90 (t : Target) :
    List.count Event.step ((Stepper1 t).RotateDegrees t 90).2.2 = 999 := by
  rw [RotateDegrees_pos t _ 90 (by norm_num), steps_4000_1_at_90 t _ rfl rfl]
  simp [count_step_pulseTrain]

/-- At 2520 steps per revolution in full-step mode the delay of 25 degrees per
second is `1000000 / 174 = 5747` microseconds. -/
theorem delay_25_at_2520_1 (t : Target) (s : Stepper) (h1 : s.stepper_StepsPerRev = 2520)
    (h2 : s.stepper_MicroStepMode = 1) :
    s.ConvertRotationalVelocityToStepDelay t 25 = 5747 := by
  rw [ConvertRotationalVelocityToStepDelay_eq t s 25 174 (by norm_num)
    (steps_2520_1_at_25 t s h1 h2)]


end StepperDriver
